import Mathlib

/-!
# Modifier arbitration of the Infinity Ergodox scan module

A shallow embedding of the capability code of `Scan/Infinity_Ergodox/scan_loop.c`:
the height registry (`state_map`, `current_height`, `register_ID`, `unregister_ID`),
the modifier slot bank (`mod_filter`, `mod_toggles`, `mod_states`, `mod_codes`),
`is_shifted`, `CustomAction_filterMod` and `CustomAction_shiftedKey`.

The C globals become the fields of one record that is passed through every
function.  `uint8_t` values are natural numbers; the only arithmetic that can
leave the 8-bit range is `current_height + 1`, which is reduced modulo 256.
The calls of the output module are recorded, in order, in the field `trace`.
-/

namespace Controller

/-! ## Data model -/

/-- One call of the output module: the HID usage code and the edge. -/
abbrev Emission := Nat × Nat

abbrev STATE_NONE : Nat := 0x00
abbrev STATE_PRESS : Nat := 0x01
abbrev STATE_HOLD : Nat := 0x02
abbrev STATE_RELEASE : Nat := 0x03

abbrev LSHIFT_INDEX : Nat := 0
abbrev RSHIFT_INDEX : Nat := 1
abbrev CAPS_INDEX : Nat := 2
abbrev ALTGR_INDEX : Nat := 3

/-- The table `mod_codes[4] = {0xE1, 0xE5, 0x39, 0xE6}`; the table is never written.
Indices above 3 are outside the C array and are given the value 0 here. -/
def mod_codes (i : Nat) : Nat :=
  match i with
  | 0 => 0xE1
  | 1 => 0xE5
  | 2 => 0x39
  | 3 => 0xE6
  | _ => 0

abbrev LSHIFT_CODE : Nat := mod_codes 0
abbrev RSHIFT_CODE : Nat := mod_codes 1
abbrev CAPS_CODE : Nat := mod_codes 2
abbrev ALTGR_CODE : Nat := mod_codes 3

/-- The global variables of the capability code, together with the sequence of
calls made to the output module so far.  The arrays are total maps; only the
indices 0..99 of `state_map` and 0..3 of the modifier arrays exist in C. -/
structure State where
  state_map : Nat → Nat
  current_height : Nat
  mod_filter : Nat → Nat
  mod_toggles : Nat → Nat
  mod_states : Nat → Nat
  trace : List Emission

/-- All tables zero and nothing emitted: the C initialisers. -/
def State.zeroed : State :=
  { state_map := fun _ => 0
    current_height := 0
    mod_filter := fun _ => 0
    mod_toggles := fun _ => 0
    mod_states := fun _ => 0
    trace := [] }

/-- Array assignment `f[i] = v`. -/
def upd (f : Nat → Nat) (i v : Nat) : Nat → Nat :=
  fun j => if j = i then v else f j

/-- The lifecycle states a capability distinguishes. -/
inductive CapabilityState where
  | CapabilityState_None
  | CapabilityState_Initial
  | CapabilityState_Any
  | CapabilityState_Last
  deriving DecidableEq

open CapabilityState

/-- Modelled from the spec: `KLL_CapabilityState` belongs to the macro module and is
not part of the scan module.  Following the comment `0x01 press, 0x02 hold,
0x03 release` of `CustomAction_filterMod` and the lifecycle of the dispatch
contract, state 1 is the initial call, state 2 any later call and state 3 the last
call; every other value selects the `default` case.  The trigger type is not
modelled. -/
def KLL_CapabilityState (state : Nat) : CapabilityState :=
  match state with
  | 1 => CapabilityState_Initial
  | 2 => CapabilityState_Any
  | 3 => CapabilityState_Last
  | _ => CapabilityState_None

/-- Modelled from the spec: `Output_usbCodeSend_capability` is an external symbol of
the output module.  The call hands one code and one edge to the output
collaborator; the model appends the pair to the trace. -/
def Output_usbCodeSend_capability (s : State) (state code : Nat) : State :=
  { s with trace := s.trace ++ [(code, state)] }

/-! ## Height registry -/

/-- The function `register_ID`: the returned value and the state afterwards. -/
def register_ID (s : State) (ID : Nat) : Nat × State :=
  if s.state_map ID = 0 then
    let s1 := { s with current_height := (s.current_height + 1) % 256 }
    let s2 := { s1 with state_map := upd s1.state_map ID s1.current_height }
    (s2.current_height, s2)
  else
    if s.state_map ID ≥ s.current_height then
      let s1 := { s with current_height := s.state_map ID }
      (s1.current_height, s1)
    else
      (0, s)

/-- The function `unregister_ID`. -/
def unregister_ID (s : State) (ID : Nat) : State :=
  let s1 := if s.state_map ID ≥ s.current_height then { s with current_height := 0 } else s
  { s1 with state_map := upd s1.state_map ID 0 }

/-! ## Modifier slot bank and the two capabilities -/

/-- The function `is_shifted`; the result is 0 or 1. -/
def is_shifted (s : State) : Nat :=
  let lshift := s.mod_filter LSHIFT_INDEX
  let rshift := s.mod_filter RSHIFT_INDEX
  let caps := if s.mod_toggles CAPS_INDEX ≠ 0 then 1 else 0
  (if lshift ≠ 0 ∨ rshift ≠ 0 then 1 else 0) ^^^ caps

/-- The capability `CustomAction_filterMod`; `args 0` is the slot index. -/
def CustomAction_filterMod (s : State) (state : Nat) (args : Nat → Nat) : State :=
  let key := args 0
  match KLL_CapabilityState state with
  | CapabilityState_Initial =>
    let s1 := { s with mod_filter := upd s.mod_filter key 0x01 }
    if s1.current_height = 0 ∧ s1.mod_states key = 0x00 then
      let s2 := { s1 with mod_states := upd s1.mod_states key 0x01 }
      let s3 := { s2 with mod_toggles := upd s2.mod_toggles key ((s2.mod_toggles key + 1) % 4) }
      Output_usbCodeSend_capability s3 STATE_PRESS (mod_codes key)
    else s1
  | CapabilityState_Any =>
    if s.current_height = 0 ∧ s.mod_states key ≠ 0x00 then
      Output_usbCodeSend_capability s STATE_HOLD (mod_codes key)
    else s
  | CapabilityState_Last =>
    let s1 := { s with mod_filter := upd s.mod_filter key 0x00 }
    if s1.current_height = 0 ∧ s1.mod_states key ≠ 0x00 then
      let s2 := { s1 with mod_states := upd s1.mod_states key 0x00 }
      let s3 := { s2 with mod_toggles := upd s2.mod_toggles key ((s2.mod_toggles key + 1) % 4) }
      Output_usbCodeSend_capability s3 STATE_RELEASE (mod_codes key)
    else s1
  | CapabilityState_None => s

/-- Press case, lines 223-226: LeftShift is out but the key does not want shift. -/
def Initial_release_lshift (s : State) (shift : Nat) : State :=
  if shift = 0x00 ∧ s.mod_states LSHIFT_INDEX ≠ 0x00 then
    Output_usbCodeSend_capability
      { s with mod_states := upd s.mod_states LSHIFT_INDEX 0x00 } STATE_RELEASE LSHIFT_CODE
  else s

/-- Press case, lines 227-230: RightShift is out but the key does not want shift. -/
def Initial_release_rshift (s : State) (shift : Nat) : State :=
  if shift = 0x00 ∧ s.mod_states RSHIFT_INDEX ≠ 0x00 then
    Output_usbCodeSend_capability
      { s with mod_states := upd s.mod_states RSHIFT_INDEX 0x00 } STATE_RELEASE RSHIFT_CODE
  else s

/-- Press case, lines 231-234: AltGr is out but the key does not want altgr. -/
def Initial_release_altgr (s : State) (altgr : Nat) : State :=
  if altgr = 0x00 ∧ s.mod_states ALTGR_INDEX ≠ 0x00 then
    Output_usbCodeSend_capability
      { s with mod_states := upd s.mod_states ALTGR_INDEX 0x00 } STATE_RELEASE ALTGR_CODE
  else s

/-- Press case, lines 235-242: shift is wanted and LeftShift is not out; RightShift
is pressed along with it when its filter is set. -/
def Initial_press_shift (s : State) (shift : Nat) : State :=
  if shift ≠ 0x00 ∧ s.mod_states LSHIFT_INDEX = 0x00 then
    let t :=
      Output_usbCodeSend_capability
        { s with mod_states := upd s.mod_states LSHIFT_INDEX 0x01 } STATE_PRESS LSHIFT_CODE
    if t.mod_filter RSHIFT_INDEX ≠ 0x00 then
      Output_usbCodeSend_capability
        { t with mod_states := upd t.mod_states RSHIFT_INDEX 0x01 } STATE_PRESS RSHIFT_CODE
    else t
  else s

/-- Press case, lines 243-246: altgr is wanted and AltGr is not out. -/
def Initial_press_altgr (s : State) (altgr : Nat) : State :=
  if altgr ≠ 0x00 ∧ s.mod_states ALTGR_INDEX = 0x00 then
    Output_usbCodeSend_capability
      { s with mod_states := upd s.mod_states ALTGR_INDEX 0x01 } STATE_PRESS ALTGR_CODE
  else s

/-- The `Press` case of the switch of `CustomAction_shiftedKey`, lines 222-247:
`register_ID`, then the five statements in their order. -/
def shiftedKey_Initial (s : State) (shift altgr id : Nat) : State :=
  let s0 := (register_ID s id).2
  let s1 := Initial_release_lshift s0 shift
  let s2 := Initial_release_rshift s1 shift
  let s3 := Initial_release_altgr s2 altgr
  let s4 := Initial_press_shift s3 shift
  Initial_press_altgr s4 altgr

/-- Hold case, lines 250-267: the shift edges re-driven by the holder in control. -/
def Any_shift (s : State) (shift : Nat) : State :=
  if shift ≠ 0x00 then
    let s1 :=
      if s.mod_states LSHIFT_INDEX ≠ 0x00 then
        Output_usbCodeSend_capability s STATE_HOLD LSHIFT_CODE
      else
        Output_usbCodeSend_capability s STATE_PRESS LSHIFT_CODE
    if s1.mod_filter RSHIFT_INDEX ≠ 0x00 then
      if s1.mod_states RSHIFT_INDEX ≠ 0x00 then
        Output_usbCodeSend_capability s1 STATE_HOLD RSHIFT_CODE
      else
        Output_usbCodeSend_capability s1 STATE_PRESS RSHIFT_CODE
    else s1
  else
    if s.mod_states LSHIFT_INDEX ≠ 0x00 then
      Output_usbCodeSend_capability s STATE_RELEASE LSHIFT_CODE
    else s

/-- Hold case, lines 269-279: the altgr edge re-driven by the holder in control. -/
def Any_altgr (s : State) (altgr : Nat) : State :=
  if altgr ≠ 0x00 then
    if s.mod_states ALTGR_INDEX ≠ 0x00 then
      Output_usbCodeSend_capability s STATE_HOLD ALTGR_CODE
    else
      Output_usbCodeSend_capability s STATE_PRESS ALTGR_CODE
  else
    if s.mod_states ALTGR_INDEX ≠ 0x00 then
      Output_usbCodeSend_capability s STATE_RELEASE ALTGR_CODE
    else s

/-- The `Hold` case of the switch of `CustomAction_shiftedKey`, lines 249-281. -/
def shiftedKey_Any (s : State) (shift altgr id : Nat) : State :=
  let r := register_ID s id
  if r.1 ≠ 0 then
    Any_altgr (Any_shift r.2 shift) altgr
  else r.2

/-- Release case, lines 284-294: the key wanted shift; both shifts that are out are
released. -/
def Last_release_shift (s : State) (shift : Nat) : State :=
  if shift ≠ 0x00 then
    let s1 :=
      if s.mod_states LSHIFT_INDEX ≠ 0x00 then
        Output_usbCodeSend_capability
          { s with mod_states := upd s.mod_states LSHIFT_INDEX 0x00 } STATE_RELEASE LSHIFT_CODE
      else s
    if s1.mod_states RSHIFT_INDEX ≠ 0x00 then
      Output_usbCodeSend_capability
        { s1 with mod_states := upd s1.mod_states RSHIFT_INDEX 0x00 } STATE_RELEASE RSHIFT_CODE
    else s1
  else s

/-- Release case, lines 296-299: the key wanted altgr and AltGr is out. -/
def Last_release_altgr (s : State) (altgr : Nat) : State :=
  if altgr ≠ 0x00 ∧ s.mod_states ALTGR_INDEX ≠ 0x00 then
    Output_usbCodeSend_capability
      { s with mod_states := upd s.mod_states ALTGR_INDEX 0x00 } STATE_RELEASE ALTGR_CODE
  else s

/-- The `Release` case of the switch of `CustomAction_shiftedKey`, lines 283-301;
the fall through into `default` does nothing. -/
def shiftedKey_Last (s : State) (shift altgr id : Nat) : State :=
  let r := register_ID s id
  let s1 :=
    if r.1 ≠ 0 then
      Last_release_altgr (Last_release_shift r.2 shift) altgr
    else r.2
  unregister_ID s1 id

/-- The shift bit selected from the arguments by `is_shifted`. -/
def resolved_shift (s : State) (args : Nat → Nat) : Nat :=
  if is_shifted s ≠ 0 then args 2 &&& 0x01 else args 0 &&& 0x01

/-- The altgr bit selected from the arguments by `is_shifted`. -/
def resolved_altgr (s : State) (args : Nat → Nat) : Nat :=
  if is_shifted s ≠ 0 then args 2 &&& 0x02 else args 0 &&& 0x02

/-- The key code selected from the arguments by `is_shifted`. -/
def resolved_key (s : State) (args : Nat → Nat) : Nat :=
  if is_shifted s ≠ 0 then args 3 else args 1

/-- The switch statement of `CustomAction_shiftedKey`, everything before the
final send of the key code. -/
def shiftedKey_switch (s : State) (state : Nat) (args : Nat → Nat) : State :=
  let shift := resolved_shift s args
  let altgr := resolved_altgr s args
  let id := args 4
  match KLL_CapabilityState state with
  | CapabilityState_Initial => shiftedKey_Initial s shift altgr id
  | CapabilityState_Any => shiftedKey_Any s shift altgr id
  | CapabilityState_Last => shiftedKey_Last s shift altgr id
  | CapabilityState_None => s

/-- The capability `CustomAction_shiftedKey`; the arguments are
`[unshifted modbits, unshifted key, shifted modbits, shifted key, id]`. -/
def CustomAction_shiftedKey (s : State) (state : Nat) (args : Nat → Nat) : State :=
  let key := resolved_key s args
  Output_usbCodeSend_capability (shiftedKey_switch s state args) state key

/-- The calls of `register_ID` and `unregister_ID` that one call of
`CustomAction_shiftedKey` makes for its ID: Press and Hold call `register_ID`,
Release calls `register_ID` and then `unregister_ID`. -/
def registryStep (s : State) (state id : Nat) : State :=
  match KLL_CapabilityState state with
  | CapabilityState_Initial => (register_ID s id).2
  | CapabilityState_Any => (register_ID s id).2
  | CapabilityState_Last => unregister_ID (register_ID s id).2 id
  | CapabilityState_None => s

/-! ## Sequences of capability calls -/

/-- The argument bytes of a capability call, read like the C pointer `args`. -/
def mkArgs (l : List Nat) : Nat → Nat :=
  fun i => l.getD i 0

/-- One call made by the dispatch loop: the capability, the trigger state and the
argument bytes. -/
inductive Call where
  | filterMod (state : Nat) (args : List Nat)
  | shiftedKey (state : Nat) (args : List Nat)
  deriving DecidableEq

/-- The effect of one call of the dispatch loop. -/
def step (s : State) (c : Call) : State :=
  match c with
  | Call.filterMod state args => CustomAction_filterMod s state (mkArgs args)
  | Call.shiftedKey state args => CustomAction_shiftedKey s state (mkArgs args)

/-- The effect of a sequence of calls, first call first. -/
def run (s : State) (cs : List Call) : State :=
  cs.foldl step s

/-- The emissions added to the trace between the state `s` and the later state `t`. -/
def emitted (s t : State) : List Emission :=
  t.trace.drop s.trace.length

/-- Membership in the modifier code table. -/
def isModCode (c : Nat) : Bool :=
  c == mod_codes 0 || c == mod_codes 1 || c == mod_codes 2 || c == mod_codes 3

/-- The lifecycle contract of the dispatch loop, checked along a sequence of calls.
`active` holds the IDs of the shifted keys between their Press and their Release,
`held` the slots of the plain modifier keys between their Press and their Release.
Every ID and every slot gets one Press, then Holds, then one Release; a pressed ID
is not active already; IDs are below 100, slots below 4, argument bytes below 256
and the key codes of a shifted key are none of the four modifier codes. -/
def lifecycleOk (active held : List Nat) : List Call → Bool
  | [] => true
  | Call.shiftedKey state args :: cs =>
    args.length == 5 && args.all (fun a => decide (a < 256)) && decide (mkArgs args 4 < 100)
      && !isModCode (mkArgs args 1) && !isModCode (mkArgs args 3)
      && (if state = STATE_PRESS then
            !active.contains (mkArgs args 4) && lifecycleOk (mkArgs args 4 :: active) held cs
          else if state = STATE_HOLD then
            active.contains (mkArgs args 4) && lifecycleOk active held cs
          else if state = STATE_RELEASE then
            active.contains (mkArgs args 4)
              && lifecycleOk (active.filter (fun j => j != mkArgs args 4)) held cs
          else false)
  | Call.filterMod state args :: cs =>
    args.length == 1 && decide (mkArgs args 0 < 4)
      && (if state = STATE_PRESS then
            !held.contains (mkArgs args 0) && lifecycleOk active (mkArgs args 0 :: held) cs
          else if state = STATE_HOLD then
            held.contains (mkArgs args 0) && lifecycleOk active held cs
          else if state = STATE_RELEASE then
            held.contains (mkArgs args 0)
              && lifecycleOk active (held.filter (fun j => j != mkArgs args 0)) cs
          else false)

/-- No two Press edges for `code` without a Release edge for `code` between them;
`pressed` tells whether a Press edge for `code` is pending at the start. -/
def noDoublePress (code : Nat) : Bool → List Emission → Bool
  | _, [] => true
  | pressed, e :: tr =>
    if e.1 = code ∧ e.2 = STATE_PRESS then !pressed && noDoublePress code true tr
    else if e.1 = code ∧ e.2 = STATE_RELEASE then noDoublePress code false tr
    else noDoublePress code pressed tr

/-- The host view of `code`: the trace contains a Press edge for `code` that no
Release edge for `code` follows. -/
def hostPressed (code : Nat) (tr : List Emission) : Bool :=
  tr.foldl
    (fun p e =>
      if e.1 = code ∧ e.2 = STATE_PRESS then true
      else if e.1 = code ∧ e.2 = STATE_RELEASE then false
      else p)
    false

/-- The ID holds authority: `current_height == state_map[id] != 0`. -/
def holdsAuthority (s : State) (id : Nat) : Prop :=
  s.current_height = s.state_map id ∧ s.state_map id ≠ 0

instance (s : State) (id : Nat) : Decidable (holdsAuthority s id) := by
  unfold holdsAuthority; infer_instance

/-! ## Concrete call sequences -/

/-- A shifted key with ID 1 that requests shift in both interpretations. -/
def keyOne (state : Nat) : Call :=
  Call.shiftedKey state [1, 4, 1, 30, 1]

/-- A shifted key with ID 2 that requests no modifier. -/
def keyTwo (state : Nat) : Call :=
  Call.shiftedKey state [0, 5, 0, 31, 2]

/-- Seven scan ticks: key 1 is pressed and held, key 2 is pressed, held one tick and
released while key 1 stays down, then key 1 is held for two more ticks and released. -/
def rolloverCalls : List Call :=
  [keyOne 1,
   keyOne 2, keyTwo 1,
   keyOne 2, keyTwo 2,
   keyOne 2, keyTwo 3,
   keyOne 2,
   keyOne 2,
   keyOne 3]

/-- The first five ticks of `rolloverCalls`. -/
def rolloverHead : List Call :=
  rolloverCalls.take 8

/-- Two keys rolled over each other: ID 2 is pressed, ID 1 released, ID 1 pressed
again, ID 2 released; ID 1 is down before and after. -/
def rollRound : List Call :=
  [Call.shiftedKey 1 [0, 5, 0, 5, 2], Call.shiftedKey 3 [0, 4, 0, 4, 1],
   Call.shiftedKey 1 [0, 4, 0, 4, 1], Call.shiftedKey 3 [0, 5, 0, 5, 2]]

/-- ID 1 is pressed and then the two keys are rolled `n` times. -/
def rollCalls (n : Nat) : List Call :=
  Call.shiftedKey 1 [0, 4, 0, 4, 1] :: (List.replicate n rollRound).flatten

/-- The state after one Press and one Release of the CapsLock key. -/
def capsLocked : State :=
  run State.zeroed [Call.filterMod 1 [2], Call.filterMod 3 [2]]

/-- A shifted key with ID 3 that requests no modifier. -/
def keyThree (state : Nat) : Call :=
  Call.shiftedKey state [0, 6, 0, 32, 3]

/-- A shifted key with ID 4 that requests no modifier. -/
def keyFour (state : Nat) : Call :=
  Call.shiftedKey state [0, 7, 0, 33, 4]

/-- Three scan ticks: key 1 is pressed; key 1 is held and key 2 pressed; in the
third tick key 1 is held, key 2 is released and key 3 is pressed. -/
def collisionCalls : List Call :=
  [keyOne 1,
   keyOne 2, keyTwo 1,
   keyOne 2, keyTwo 3, keyThree 1]

/-- Four scan ticks: keys 1, 2 and 3 are pressed one tick after the other and held;
in the fourth tick key 3 is released and key 4 is pressed. -/
def overtakeCalls : List Call :=
  [keyOne 1,
   keyOne 2, keyTwo 1,
   keyOne 2, keyTwo 2, keyThree 1,
   keyOne 2, keyTwo 2, keyThree 3, keyFour 1]

/-! ## Guarded Presses -/

/-- No registered height exceeds `current_height`, and `current_height + 1` fits
into eight bits. -/
def pressGuard (s : State) : Bool :=
  (List.range 100).all (fun j => decide (s.state_map j ≤ s.current_height))
    && decide (s.current_height < 255)

/-- Every Press of a shifted key in the sequence finds `pressGuard`. -/
def pressesGuarded (s : State) : List Call → Bool
  | [] => true
  | Call.shiftedKey state args :: cs =>
    (if state = STATE_PRESS then pressGuard s else true)
      && pressesGuarded (step s (Call.shiftedKey state args)) cs
  | Call.filterMod state args :: cs =>
    pressesGuarded (step s (Call.filterMod state args)) cs

/-- The ID of the most recent Press of a shifted key, `o` if the sequence has none. -/
def lastPressFrom (o : Option Nat) : List Call → Option Nat
  | [] => o
  | Call.shiftedKey state args :: cs =>
    lastPressFrom (if state = STATE_PRESS then some (mkArgs args 4) else o) cs
  | Call.filterMod _ _ :: cs => lastPressFrom o cs

/-- The ID of the most recent Press of a shifted key in the sequence. -/
def lastPress (cs : List Call) : Option Nat :=
  lastPressFrom none cs

/-- The relation between the registry and the dispatch loop that guarded sequences
keep: `active` are exactly the registered IDs, all below 100; registered heights
are pairwise different; and while the most recently pressed ID `last` is registered
its height is `current_height` and every other height is smaller. -/
def RegInv (m : Nat → Nat) (h : Nat) (active : List Nat) (last : Option Nat) : Prop :=
  (∀ j, j ∈ active ↔ m j ≠ 0)
    ∧ (∀ j, j ∈ active → j < 100)
    ∧ (∀ i j, m i ≠ 0 → m i = m j → i = j)
    ∧ (∀ t, last = some t → m t ≠ 0 → m t = h ∧ ∀ j, j ≠ t → m j < h)

/-! ## Emissions of one call -/

/-- The statements the three cases of the switch of `CustomAction_shiftedKey` are
made of, for the resolved shift and altgr bits. -/
def switchStatements (shift altgr : Nat) : List (State → State) :=
  [fun t => Initial_release_lshift t shift,
   fun t => Initial_release_rshift t shift,
   fun t => Initial_release_altgr t altgr,
   fun t => Initial_press_shift t shift,
   fun t => Initial_press_altgr t altgr,
   fun t => Any_shift t shift,
   fun t => Any_altgr t altgr,
   fun t => Last_release_shift t shift,
   fun t => Last_release_altgr t altgr]

/-- From `s` to `t` the trace is only extended, and a Release edge for the code of
a slot is among the new emissions only if `P` holds of the slot. -/
def ReleaseOnlyIf (P : Nat → Prop) (s t : State) : Prop :=
  (∃ out, t.trace = s.trace ++ out)
    ∧ ∀ slot, slot < 4 → (mod_codes slot, STATE_RELEASE) ∈ emitted s t → P slot

/-- From `s` to `t` the trace is only extended, and every new emission satisfies
`P`. -/
def EmitsOnly (P : Emission → Prop) (s t : State) : Prop :=
  ∃ out, t.trace = s.trace ++ out ∧ ∀ e, e ∈ out → P e

/-! ## Key edges in a trace -/

/-- The trigger states of the calls of the shifted key `id`, in order. -/
def statesOf (id : Nat) : List Call → List Nat
  | [] => []
  | Call.shiftedKey state args :: cs =>
    if mkArgs args 4 = id then state :: statesOf id cs else statesOf id cs
  | Call.filterMod _ _ :: cs => statesOf id cs

/-- The final emission of every call of the shifted key `id` in the sequence, in
order; `s` is the state the sequence starts from. -/
def keyEmissions (id : Nat) : State → List Call → List Emission
  | _, [] => []
  | s, Call.shiftedKey state args :: cs =>
    (if mkArgs args 4 = id then
        (emitted s (step s (Call.shiftedKey state args))).getLast?.toList
      else [])
      ++ keyEmissions id (step s (Call.shiftedKey state args)) cs
  | s, Call.filterMod state args :: cs =>
    keyEmissions id (step s (Call.filterMod state args)) cs

/-- The edges of the emissions whose code is `k1` or `k3`, in order. -/
def edgesFor (k1 k3 : Nat) (tr : List Emission) : List Nat :=
  (tr.filter (fun e => e.1 == k1 || e.1 == k3)).map Prod.snd

/-- The call leaves the key codes `k1` and `k3` to the shifted key `id`: a call of
that key carries exactly these two key codes, a call of another shifted key carries
neither, and a plain modifier call names one of the four slots. -/
def leavesKeyCodes (id k1 k3 : Nat) : Call → Bool
  | Call.filterMod _ args => decide (mkArgs args 0 < 4)
  | Call.shiftedKey _ args =>
    if mkArgs args 4 = id then mkArgs args 1 == k1 && mkArgs args 3 == k3
    else mkArgs args 1 != k1 && mkArgs args 1 != k3 && mkArgs args 3 != k1 && mkArgs args 3 != k3

/-! ## Calls of the registry alone and toggle cycles -/

/-- One call of the height registry. -/
inductive RegistryCall where
  | register (id : Nat)
  | unregister (id : Nat)
  deriving DecidableEq

/-- The ID a registry call is made for. -/
def RegistryCall.id : RegistryCall → Nat
  | RegistryCall.register id => id
  | RegistryCall.unregister id => id

/-- The effect of one registry call on the state; the value returned by
`register_ID` is dropped. -/
def registryCall (s : State) : RegistryCall → State
  | RegistryCall.register id => (register_ID s id).2
  | RegistryCall.unregister id => unregister_ID s id

/-- The effect of a sequence of registry calls, first call first. -/
def runRegistry (s : State) (ops : List RegistryCall) : State :=
  ops.foldl registryCall s

/-- One Press followed by one Release of the plain modifier key of `slot`. -/
def toggleCycle (slot : Nat) : List Call :=
  [Call.filterMod STATE_PRESS [slot], Call.filterMod STATE_RELEASE [slot]]

/-! ## Basic facts about the embedding -/

@[simp] theorem upd_same (f : Nat → Nat) (i v : Nat) : upd f i v i = v := by
  simp [upd]

@[simp] theorem upd_other (f : Nat → Nat) (i v j : Nat) (h : j ≠ i) : upd f i v j = f j := by
  simp [upd, h]

theorem upd_apply (f : Nat → Nat) (i v j : Nat) : upd f i v j = if j = i then v else f j := rfl

@[simp] theorem send_state_map (s : State) (e c : Nat) :
    (Output_usbCodeSend_capability s e c).state_map = s.state_map := rfl

@[simp] theorem send_current_height (s : State) (e c : Nat) :
    (Output_usbCodeSend_capability s e c).current_height = s.current_height := rfl

@[simp] theorem send_mod_filter (s : State) (e c : Nat) :
    (Output_usbCodeSend_capability s e c).mod_filter = s.mod_filter := rfl

@[simp] theorem send_mod_toggles (s : State) (e c : Nat) :
    (Output_usbCodeSend_capability s e c).mod_toggles = s.mod_toggles := rfl

@[simp] theorem send_mod_states (s : State) (e c : Nat) :
    (Output_usbCodeSend_capability s e c).mod_states = s.mod_states := rfl

@[simp] theorem send_trace (s : State) (e c : Nat) :
    (Output_usbCodeSend_capability s e c).trace = s.trace ++ [(c, e)] := rfl

/-! ### The height registry -/

theorem register_ID_state_map (s : State) (id : Nat) :
    (register_ID s id).2.state_map =
      if s.state_map id = 0 then upd s.state_map id ((s.current_height + 1) % 256)
      else s.state_map := by
  unfold register_ID
  split_ifs <;> rfl

theorem register_ID_current_height (s : State) (id : Nat) :
    (register_ID s id).2.current_height =
      if s.state_map id = 0 then (s.current_height + 1) % 256
      else if s.state_map id ≥ s.current_height then s.state_map id
      else s.current_height := by
  unfold register_ID
  split_ifs <;> rfl

theorem register_ID_result (s : State) (id : Nat) :
    (register_ID s id).1 =
      if s.state_map id = 0 then (s.current_height + 1) % 256
      else if s.state_map id ≥ s.current_height then s.state_map id
      else 0 := by
  unfold register_ID
  split_ifs <;> rfl

@[simp] theorem register_ID_mod_filter (s : State) (id : Nat) :
    (register_ID s id).2.mod_filter = s.mod_filter := by
  unfold register_ID
  split_ifs <;> rfl

@[simp] theorem register_ID_mod_toggles (s : State) (id : Nat) :
    (register_ID s id).2.mod_toggles = s.mod_toggles := by
  unfold register_ID
  split_ifs <;> rfl

@[simp] theorem register_ID_mod_states (s : State) (id : Nat) :
    (register_ID s id).2.mod_states = s.mod_states := by
  unfold register_ID
  split_ifs <;> rfl

@[simp] theorem register_ID_trace (s : State) (id : Nat) :
    (register_ID s id).2.trace = s.trace := by
  unfold register_ID
  split_ifs <;> rfl

theorem unregister_ID_state_map (s : State) (id : Nat) :
    (unregister_ID s id).state_map = upd s.state_map id 0 := by
  unfold unregister_ID
  split_ifs <;> rfl

theorem unregister_ID_current_height (s : State) (id : Nat) :
    (unregister_ID s id).current_height =
      if s.state_map id ≥ s.current_height then 0 else s.current_height := by
  unfold unregister_ID
  split_ifs <;> rfl

@[simp] theorem unregister_ID_mod_filter (s : State) (id : Nat) :
    (unregister_ID s id).mod_filter = s.mod_filter := by
  unfold unregister_ID
  split_ifs <;> rfl

@[simp] theorem unregister_ID_mod_toggles (s : State) (id : Nat) :
    (unregister_ID s id).mod_toggles = s.mod_toggles := by
  unfold unregister_ID
  split_ifs <;> rfl

@[simp] theorem unregister_ID_mod_states (s : State) (id : Nat) :
    (unregister_ID s id).mod_states = s.mod_states := by
  unfold unregister_ID
  split_ifs <;> rfl

@[simp] theorem unregister_ID_trace (s : State) (id : Nat) :
    (unregister_ID s id).trace = s.trace := by
  unfold unregister_ID
  split_ifs <;> rfl

/-! ### The statements of the shifted-key switch leave the registry and the
physical view alone -/

@[simp] theorem Initial_release_lshift_state_map (s : State) (x : Nat) :
    (Initial_release_lshift s x).state_map = s.state_map := by
  unfold Initial_release_lshift; split_ifs <;> rfl

@[simp] theorem Initial_release_lshift_current_height (s : State) (x : Nat) :
    (Initial_release_lshift s x).current_height = s.current_height := by
  unfold Initial_release_lshift; split_ifs <;> rfl

@[simp] theorem Initial_release_lshift_mod_filter (s : State) (x : Nat) :
    (Initial_release_lshift s x).mod_filter = s.mod_filter := by
  unfold Initial_release_lshift; split_ifs <;> rfl

@[simp] theorem Initial_release_lshift_mod_toggles (s : State) (x : Nat) :
    (Initial_release_lshift s x).mod_toggles = s.mod_toggles := by
  unfold Initial_release_lshift; split_ifs <;> rfl

@[simp] theorem Initial_release_rshift_state_map (s : State) (x : Nat) :
    (Initial_release_rshift s x).state_map = s.state_map := by
  unfold Initial_release_rshift; split_ifs <;> rfl

@[simp] theorem Initial_release_rshift_current_height (s : State) (x : Nat) :
    (Initial_release_rshift s x).current_height = s.current_height := by
  unfold Initial_release_rshift; split_ifs <;> rfl

@[simp] theorem Initial_release_rshift_mod_filter (s : State) (x : Nat) :
    (Initial_release_rshift s x).mod_filter = s.mod_filter := by
  unfold Initial_release_rshift; split_ifs <;> rfl

@[simp] theorem Initial_release_rshift_mod_toggles (s : State) (x : Nat) :
    (Initial_release_rshift s x).mod_toggles = s.mod_toggles := by
  unfold Initial_release_rshift; split_ifs <;> rfl

@[simp] theorem Initial_release_altgr_state_map (s : State) (x : Nat) :
    (Initial_release_altgr s x).state_map = s.state_map := by
  unfold Initial_release_altgr; split_ifs <;> rfl

@[simp] theorem Initial_release_altgr_current_height (s : State) (x : Nat) :
    (Initial_release_altgr s x).current_height = s.current_height := by
  unfold Initial_release_altgr; split_ifs <;> rfl

@[simp] theorem Initial_release_altgr_mod_filter (s : State) (x : Nat) :
    (Initial_release_altgr s x).mod_filter = s.mod_filter := by
  unfold Initial_release_altgr; split_ifs <;> rfl

@[simp] theorem Initial_release_altgr_mod_toggles (s : State) (x : Nat) :
    (Initial_release_altgr s x).mod_toggles = s.mod_toggles := by
  unfold Initial_release_altgr; split_ifs <;> rfl

@[simp] theorem Initial_press_shift_state_map (s : State) (x : Nat) :
    (Initial_press_shift s x).state_map = s.state_map := by
  unfold Initial_press_shift; simp only []; split_ifs <;> rfl

@[simp] theorem Initial_press_shift_current_height (s : State) (x : Nat) :
    (Initial_press_shift s x).current_height = s.current_height := by
  unfold Initial_press_shift; simp only []; split_ifs <;> rfl

@[simp] theorem Initial_press_shift_mod_filter (s : State) (x : Nat) :
    (Initial_press_shift s x).mod_filter = s.mod_filter := by
  unfold Initial_press_shift; simp only []; split_ifs <;> rfl

@[simp] theorem Initial_press_shift_mod_toggles (s : State) (x : Nat) :
    (Initial_press_shift s x).mod_toggles = s.mod_toggles := by
  unfold Initial_press_shift; simp only []; split_ifs <;> rfl

@[simp] theorem Initial_press_altgr_state_map (s : State) (x : Nat) :
    (Initial_press_altgr s x).state_map = s.state_map := by
  unfold Initial_press_altgr; split_ifs <;> rfl

@[simp] theorem Initial_press_altgr_current_height (s : State) (x : Nat) :
    (Initial_press_altgr s x).current_height = s.current_height := by
  unfold Initial_press_altgr; split_ifs <;> rfl

@[simp] theorem Initial_press_altgr_mod_filter (s : State) (x : Nat) :
    (Initial_press_altgr s x).mod_filter = s.mod_filter := by
  unfold Initial_press_altgr; split_ifs <;> rfl

@[simp] theorem Initial_press_altgr_mod_toggles (s : State) (x : Nat) :
    (Initial_press_altgr s x).mod_toggles = s.mod_toggles := by
  unfold Initial_press_altgr; split_ifs <;> rfl

@[simp] theorem Any_shift_state_map (s : State) (x : Nat) :
    (Any_shift s x).state_map = s.state_map := by
  unfold Any_shift; simp only []; split_ifs <;> rfl

@[simp] theorem Any_shift_current_height (s : State) (x : Nat) :
    (Any_shift s x).current_height = s.current_height := by
  unfold Any_shift; simp only []; split_ifs <;> rfl

@[simp] theorem Any_shift_mod_filter (s : State) (x : Nat) :
    (Any_shift s x).mod_filter = s.mod_filter := by
  unfold Any_shift; simp only []; split_ifs <;> rfl

@[simp] theorem Any_shift_mod_toggles (s : State) (x : Nat) :
    (Any_shift s x).mod_toggles = s.mod_toggles := by
  unfold Any_shift; simp only []; split_ifs <;> rfl

@[simp] theorem Any_shift_mod_states (s : State) (x : Nat) :
    (Any_shift s x).mod_states = s.mod_states := by
  unfold Any_shift; simp only []; split_ifs <;> rfl

@[simp] theorem Any_altgr_state_map (s : State) (x : Nat) :
    (Any_altgr s x).state_map = s.state_map := by
  unfold Any_altgr; split_ifs <;> rfl

@[simp] theorem Any_altgr_current_height (s : State) (x : Nat) :
    (Any_altgr s x).current_height = s.current_height := by
  unfold Any_altgr; split_ifs <;> rfl

@[simp] theorem Any_altgr_mod_filter (s : State) (x : Nat) :
    (Any_altgr s x).mod_filter = s.mod_filter := by
  unfold Any_altgr; split_ifs <;> rfl

@[simp] theorem Any_altgr_mod_toggles (s : State) (x : Nat) :
    (Any_altgr s x).mod_toggles = s.mod_toggles := by
  unfold Any_altgr; split_ifs <;> rfl

@[simp] theorem Any_altgr_mod_states (s : State) (x : Nat) :
    (Any_altgr s x).mod_states = s.mod_states := by
  unfold Any_altgr; split_ifs <;> rfl

@[simp] theorem Last_release_shift_state_map (s : State) (x : Nat) :
    (Last_release_shift s x).state_map = s.state_map := by
  unfold Last_release_shift; simp only []; split_ifs <;> rfl

@[simp] theorem Last_release_shift_current_height (s : State) (x : Nat) :
    (Last_release_shift s x).current_height = s.current_height := by
  unfold Last_release_shift; simp only []; split_ifs <;> rfl

@[simp] theorem Last_release_shift_mod_filter (s : State) (x : Nat) :
    (Last_release_shift s x).mod_filter = s.mod_filter := by
  unfold Last_release_shift; simp only []; split_ifs <;> rfl

@[simp] theorem Last_release_shift_mod_toggles (s : State) (x : Nat) :
    (Last_release_shift s x).mod_toggles = s.mod_toggles := by
  unfold Last_release_shift; simp only []; split_ifs <;> rfl

@[simp] theorem Last_release_altgr_state_map (s : State) (x : Nat) :
    (Last_release_altgr s x).state_map = s.state_map := by
  unfold Last_release_altgr; split_ifs <;> rfl

@[simp] theorem Last_release_altgr_current_height (s : State) (x : Nat) :
    (Last_release_altgr s x).current_height = s.current_height := by
  unfold Last_release_altgr; split_ifs <;> rfl

@[simp] theorem Last_release_altgr_mod_filter (s : State) (x : Nat) :
    (Last_release_altgr s x).mod_filter = s.mod_filter := by
  unfold Last_release_altgr; split_ifs <;> rfl

@[simp] theorem Last_release_altgr_mod_toggles (s : State) (x : Nat) :
    (Last_release_altgr s x).mod_toggles = s.mod_toggles := by
  unfold Last_release_altgr; split_ifs <;> rfl

/-- The registry fields after the switch are those after `registryStep`. -/
theorem shiftedKey_switch_state_map (s : State) (state : Nat) (args : Nat → Nat) :
    (shiftedKey_switch s state args).state_map = (registryStep s state (args 4)).state_map := by
  unfold shiftedKey_switch registryStep shiftedKey_Initial shiftedKey_Any shiftedKey_Last
  cases KLL_CapabilityState state <;> simp only []
  · simp
  · split_ifs <;> simp
  · simp [unregister_ID_state_map, apply_ite State.state_map]

theorem shiftedKey_switch_current_height (s : State) (state : Nat) (args : Nat → Nat) :
    (shiftedKey_switch s state args).current_height
      = (registryStep s state (args 4)).current_height := by
  unfold shiftedKey_switch registryStep shiftedKey_Initial shiftedKey_Any shiftedKey_Last
  cases KLL_CapabilityState state <;> simp only []
  · simp
  · split_ifs <;> simp
  · simp [unregister_ID_current_height, apply_ite State.state_map,
      apply_ite State.current_height]

theorem CustomAction_shiftedKey_state_map (s : State) (state : Nat) (args : Nat → Nat) :
    (CustomAction_shiftedKey s state args).state_map
      = (registryStep s state (args 4)).state_map := by
  unfold CustomAction_shiftedKey
  simp [shiftedKey_switch_state_map]

theorem CustomAction_shiftedKey_current_height (s : State) (state : Nat) (args : Nat → Nat) :
    (CustomAction_shiftedKey s state args).current_height
      = (registryStep s state (args 4)).current_height := by
  unfold CustomAction_shiftedKey
  simp [shiftedKey_switch_current_height]

theorem CustomAction_filterMod_state_map (s : State) (state : Nat) (args : Nat → Nat) :
    (CustomAction_filterMod s state args).state_map = s.state_map := by
  unfold CustomAction_filterMod
  cases KLL_CapabilityState state <;> simp only [] <;> first | rfl | (split_ifs <;> rfl)

theorem CustomAction_filterMod_current_height (s : State) (state : Nat) (args : Nat → Nat) :
    (CustomAction_filterMod s state args).current_height = s.current_height := by
  unfold CustomAction_filterMod
  cases KLL_CapabilityState state <;> simp only [] <;> first | rfl | (split_ifs <;> rfl)

/-! ### What each statement of the shifted-key switch emits and writes -/

theorem Initial_release_lshift_trace (s : State) (x : Nat) :
    (Initial_release_lshift s x).trace =
      s.trace ++ (if x = 0 ∧ s.mod_states LSHIFT_INDEX ≠ 0 then [(LSHIFT_CODE, STATE_RELEASE)]
        else []) := by
  unfold Initial_release_lshift; split_ifs <;> simp

theorem Initial_release_lshift_mod_states (s : State) (x : Nat) :
    (Initial_release_lshift s x).mod_states =
      if x = 0 ∧ s.mod_states LSHIFT_INDEX ≠ 0 then upd s.mod_states LSHIFT_INDEX 0
      else s.mod_states := by
  unfold Initial_release_lshift; split_ifs <;> rfl

theorem Initial_release_rshift_trace (s : State) (x : Nat) :
    (Initial_release_rshift s x).trace =
      s.trace ++ (if x = 0 ∧ s.mod_states RSHIFT_INDEX ≠ 0 then [(RSHIFT_CODE, STATE_RELEASE)]
        else []) := by
  unfold Initial_release_rshift; split_ifs <;> simp

theorem Initial_release_rshift_mod_states (s : State) (x : Nat) :
    (Initial_release_rshift s x).mod_states =
      if x = 0 ∧ s.mod_states RSHIFT_INDEX ≠ 0 then upd s.mod_states RSHIFT_INDEX 0
      else s.mod_states := by
  unfold Initial_release_rshift; split_ifs <;> rfl

theorem Initial_release_altgr_trace (s : State) (x : Nat) :
    (Initial_release_altgr s x).trace =
      s.trace ++ (if x = 0 ∧ s.mod_states ALTGR_INDEX ≠ 0 then [(ALTGR_CODE, STATE_RELEASE)]
        else []) := by
  unfold Initial_release_altgr; split_ifs <;> simp

theorem Initial_release_altgr_mod_states (s : State) (x : Nat) :
    (Initial_release_altgr s x).mod_states =
      if x = 0 ∧ s.mod_states ALTGR_INDEX ≠ 0 then upd s.mod_states ALTGR_INDEX 0
      else s.mod_states := by
  unfold Initial_release_altgr; split_ifs <;> rfl

theorem Initial_press_shift_trace (s : State) (x : Nat) :
    (Initial_press_shift s x).trace =
      s.trace ++ (if x ≠ 0 ∧ s.mod_states LSHIFT_INDEX = 0 then
        (if s.mod_filter RSHIFT_INDEX ≠ 0 then
          [(LSHIFT_CODE, STATE_PRESS), (RSHIFT_CODE, STATE_PRESS)]
        else [(LSHIFT_CODE, STATE_PRESS)])
        else []) := by
  unfold Initial_press_shift; simp only []; split_ifs <;> simp_all

theorem Initial_press_shift_mod_states (s : State) (x : Nat) :
    (Initial_press_shift s x).mod_states =
      if x ≠ 0 ∧ s.mod_states LSHIFT_INDEX = 0 then
        (if s.mod_filter RSHIFT_INDEX ≠ 0 then
          upd (upd s.mod_states LSHIFT_INDEX 1) RSHIFT_INDEX 1
        else upd s.mod_states LSHIFT_INDEX 1)
      else s.mod_states := by
  unfold Initial_press_shift; simp only []; split_ifs <;> simp_all

theorem Initial_press_altgr_trace (s : State) (x : Nat) :
    (Initial_press_altgr s x).trace =
      s.trace ++ (if x ≠ 0 ∧ s.mod_states ALTGR_INDEX = 0 then [(ALTGR_CODE, STATE_PRESS)]
        else []) := by
  unfold Initial_press_altgr; split_ifs <;> simp

theorem Initial_press_altgr_mod_states (s : State) (x : Nat) :
    (Initial_press_altgr s x).mod_states =
      if x ≠ 0 ∧ s.mod_states ALTGR_INDEX = 0 then upd s.mod_states ALTGR_INDEX 1
      else s.mod_states := by
  unfold Initial_press_altgr; split_ifs <;> rfl

theorem Any_shift_trace (s : State) (x : Nat) :
    (Any_shift s x).trace =
      s.trace ++ (if x ≠ 0 then
        (if s.mod_states LSHIFT_INDEX ≠ 0 then [(LSHIFT_CODE, STATE_HOLD)]
          else [(LSHIFT_CODE, STATE_PRESS)])
        ++ (if s.mod_filter RSHIFT_INDEX ≠ 0 then
              (if s.mod_states RSHIFT_INDEX ≠ 0 then [(RSHIFT_CODE, STATE_HOLD)]
                else [(RSHIFT_CODE, STATE_PRESS)])
            else [])
        else (if s.mod_states LSHIFT_INDEX ≠ 0 then [(LSHIFT_CODE, STATE_RELEASE)] else [])) := by
  unfold Any_shift; simp only []; split_ifs <;> simp_all

theorem Any_altgr_trace (s : State) (x : Nat) :
    (Any_altgr s x).trace =
      s.trace ++ (if x ≠ 0 then
        (if s.mod_states ALTGR_INDEX ≠ 0 then [(ALTGR_CODE, STATE_HOLD)]
          else [(ALTGR_CODE, STATE_PRESS)])
        else (if s.mod_states ALTGR_INDEX ≠ 0 then [(ALTGR_CODE, STATE_RELEASE)] else [])) := by
  unfold Any_altgr; split_ifs <;> simp

theorem Last_release_shift_trace (s : State) (x : Nat) :
    (Last_release_shift s x).trace =
      s.trace ++ (if x ≠ 0 then
        (if s.mod_states LSHIFT_INDEX ≠ 0 then [(LSHIFT_CODE, STATE_RELEASE)] else [])
        ++ (if s.mod_states RSHIFT_INDEX ≠ 0 then [(RSHIFT_CODE, STATE_RELEASE)] else [])
        else []) := by
  unfold Last_release_shift; simp only []; split_ifs <;> simp_all [upd_apply]

theorem Last_release_shift_mod_states (s : State) (x : Nat) :
    (Last_release_shift s x).mod_states =
      if x ≠ 0 then upd (upd s.mod_states LSHIFT_INDEX 0) RSHIFT_INDEX 0 else s.mod_states := by
  unfold Last_release_shift; simp only []
  split_ifs <;> funext j <;> simp_all [upd_apply] <;> split_ifs <;> simp_all

theorem Last_release_altgr_trace (s : State) (x : Nat) :
    (Last_release_altgr s x).trace =
      s.trace ++ (if x ≠ 0 ∧ s.mod_states ALTGR_INDEX ≠ 0 then [(ALTGR_CODE, STATE_RELEASE)]
        else []) := by
  unfold Last_release_altgr; split_ifs <;> simp

theorem Last_release_altgr_mod_states (s : State) (x : Nat) :
    (Last_release_altgr s x).mod_states =
      if x ≠ 0 ∧ s.mod_states ALTGR_INDEX ≠ 0 then upd s.mod_states ALTGR_INDEX 0
      else s.mod_states := by
  unfold Last_release_altgr; split_ifs <;> rfl

/-! ## Runs -/

theorem run_nil (s : State) : run s [] = s := rfl

theorem run_cons (s : State) (c : Call) (cs : List Call) :
    run s (c :: cs) = run (step s c) cs := rfl

theorem run_append (s : State) (cs ds : List Call) :
    run s (cs ++ ds) = run (run s cs) ds := by
  simp [run, List.foldl_append]

theorem step_state_map (s : State) (c : Call) :
    (step s c).state_map =
      match c with
      | Call.filterMod _ _ => s.state_map
      | Call.shiftedKey state args => (registryStep s state (mkArgs args 4)).state_map := by
  cases c with
  | filterMod state args => exact CustomAction_filterMod_state_map s state (mkArgs args)
  | shiftedKey state args => exact CustomAction_shiftedKey_state_map s state (mkArgs args)

theorem step_current_height (s : State) (c : Call) :
    (step s c).current_height =
      match c with
      | Call.filterMod _ _ => s.current_height
      | Call.shiftedKey state args =>
        (registryStep s state (mkArgs args 4)).current_height := by
  cases c with
  | filterMod state args => exact CustomAction_filterMod_current_height s state (mkArgs args)
  | shiftedKey state args => exact CustomAction_shiftedKey_current_height s state (mkArgs args)

/-! ## The registry along guarded sequences -/

theorem pressGuard_spec (s : State) (h : pressGuard s = true) :
    (∀ j, j < 100 → s.state_map j ≤ s.current_height) ∧ s.current_height < 255 := by
  unfold pressGuard at h
  simp only [Bool.and_eq_true, List.all_eq_true, List.mem_range, decide_eq_true_eq] at h
  exact h

theorem RegInv_zeroed (last : Option Nat) :
    RegInv State.zeroed.state_map State.zeroed.current_height [] last := by
  refine ⟨?_, ?_, ?_, ?_⟩ <;> simp [State.zeroed]

/-- A guarded fresh registration keeps the relation and makes the ID the last one. -/
theorem RegInv_press (s : State) (active : List Nat) (last : Option Nat) (id : Nat)
    (hinv : RegInv s.state_map s.current_height active last)
    (hid : id < 100) (hfresh : id ∉ active) (hg : pressGuard s = true) :
    RegInv (register_ID s id).2.state_map (register_ID s id).2.current_height
      (id :: active) (some id) := by
  obtain ⟨hmem, hlt, hdist, _⟩ := hinv
  obtain ⟨hle, h255⟩ := pressGuard_spec s hg
  have hzero : s.state_map id = 0 := by
    by_contra hne
    exact hfresh ((hmem id).2 hne)
  have hall : ∀ j, s.state_map j ≤ s.current_height := by
    intro j
    by_cases hj : j < 100
    · exact hle j hj
    · have : s.state_map j = 0 := by
        by_contra hne
        exact hj (hlt j ((hmem j).2 hne))
      omega
  have hmod : (s.current_height + 1) % 256 = s.current_height + 1 := by omega
  rw [register_ID_state_map, register_ID_current_height, if_pos hzero, if_pos hzero, hmod]
  refine ⟨?_, ?_, ?_, ?_⟩
  · intro j
    by_cases hj : j = id
    · subst hj; simp
    · simp [hj, hmem j]
  · intro j hj
    rcases List.mem_cons.1 hj with h | h
    · omega
    · exact hlt j h
  · intro i j hi hij
    by_cases h1 : i = id <;> by_cases h2 : j = id
    · omega
    · subst h1
      simp [h2] at hij
      have := hall j
      omega
    · subst h2
      simp [h1] at hij
      have := hall i
      omega
    · simp [h1, h2] at hi hij
      exact hdist i j hi hij
  · intro t ht _
    cases ht
    refine ⟨by simp, ?_⟩
    intro j hj
    have := hall j
    simp [hj]
    omega

/-- A repeated registration of an active ID keeps the relation. -/
theorem RegInv_hold (s : State) (active : List Nat) (last : Option Nat) (id : Nat)
    (hinv : RegInv s.state_map s.current_height active last) (hact : id ∈ active) :
    RegInv (register_ID s id).2.state_map (register_ID s id).2.current_height active last := by
  obtain ⟨hmem, hlt, hdist, htop⟩ := hinv
  have hne : s.state_map id ≠ 0 := (hmem id).1 hact
  rw [register_ID_state_map, register_ID_current_height, if_neg hne, if_neg hne]
  refine ⟨hmem, hlt, hdist, ?_⟩
  intro t ht hreg
  obtain ⟨h1, h2⟩ := htop t ht hreg
  by_cases hid : id = t
  · subst hid
    simp [h1]
    exact h2
  · have := h2 id hid
    have hnot : ¬ s.state_map id ≥ s.current_height := by omega
    rw [if_neg hnot]
    exact ⟨h1, h2⟩

/-- The registration and the removal made by a Release keep the relation. -/
theorem RegInv_release (s : State) (active : List Nat) (last : Option Nat) (id : Nat)
    (hinv : RegInv s.state_map s.current_height active last) (hact : id ∈ active) :
    RegInv (unregister_ID (register_ID s id).2 id).state_map
      (unregister_ID (register_ID s id).2 id).current_height
      (active.filter (fun j => j != id)) last := by
  have hinv2 := RegInv_hold s active last id hinv hact
  generalize (register_ID s id).2 = r at hinv2
  obtain ⟨hmem, hlt, hdist, htop⟩ := hinv2
  rw [unregister_ID_state_map, unregister_ID_current_height]
  refine ⟨?_, ?_, ?_, ?_⟩
  · intro j
    by_cases hj : j = id
    · subst hj; simp
    · simp [hj, hmem j]
  · intro j hj
    exact hlt j (List.mem_filter.1 hj).1
  · intro i j hi hij
    by_cases h1 : i = id
    · subst h1; simp at hi
    · simp only [upd_other _ _ _ _ h1] at hi hij
      by_cases h2 : j = id
      · subst h2; simp at hij; exact absurd hij hi
      · simp only [upd_other _ _ _ _ h2] at hij
        exact hdist i j hi hij
  · intro t ht hreg
    have hti : t ≠ id := by
      intro h; subst h; simp at hreg
    simp only [upd_other _ _ _ _ hti] at hreg ⊢
    obtain ⟨h1, h2⟩ := htop t ht hreg
    have hlow := h2 id (Ne.symm hti)
    have hnot : ¬ r.state_map id ≥ r.current_height := by omega
    rw [if_neg hnot]
    refine ⟨h1, ?_⟩
    intro j hj
    by_cases hji : j = id
    · subst hji; simp; omega
    · simp [hji]; exact h2 j hj

theorem registryStep_press (s : State) (id : Nat) :
    registryStep s STATE_PRESS id = (register_ID s id).2 := rfl

theorem registryStep_hold (s : State) (id : Nat) :
    registryStep s STATE_HOLD id = (register_ID s id).2 := rfl

theorem registryStep_release (s : State) (id : Nat) :
    registryStep s STATE_RELEASE id = unregister_ID (register_ID s id).2 id := rfl

/-- Along a sequence that respects the lifecycle and whose Presses are guarded the
relation `RegInv` is kept, with the most recent Press as the last ID. -/
theorem RegInv_run (cs : List Call) :
    ∀ (s : State) (active held : List Nat) (last : Option Nat),
      RegInv s.state_map s.current_height active last →
      lifecycleOk active held cs = true →
      pressesGuarded s cs = true →
      ∃ active', RegInv (run s cs).state_map (run s cs).current_height active'
        (lastPressFrom last cs) := by
  induction cs with
  | nil =>
    intro s active held last hinv _ _
    exact ⟨active, hinv⟩
  | cons c cs ih =>
    intro s active held last hinv hl hg
    cases c with
    | filterMod state args =>
      simp only [lifecycleOk, Bool.and_eq_true] at hl
      simp only [pressesGuarded] at hg
      rw [run_cons]
      simp only [lastPressFrom]
      have hinv2 : RegInv (step s (Call.filterMod state args)).state_map
          (step s (Call.filterMod state args)).current_height active last := by
        rw [step_state_map, step_current_height]
        exact hinv
      obtain ⟨_, hrest⟩ := hl
      by_cases h1 : state = STATE_PRESS
      · rw [if_pos h1, Bool.and_eq_true] at hrest
        exact ih _ active _ last hinv2 hrest.2 hg
      · rw [if_neg h1] at hrest
        by_cases h2 : state = STATE_HOLD
        · rw [if_pos h2, Bool.and_eq_true] at hrest
          exact ih _ active _ last hinv2 hrest.2 hg
        · rw [if_neg h2] at hrest
          by_cases h3 : state = STATE_RELEASE
          · rw [if_pos h3, Bool.and_eq_true] at hrest
            exact ih _ active _ last hinv2 hrest.2 hg
          · rw [if_neg h3] at hrest
            exact absurd hrest (by simp)
    | shiftedKey state args =>
      simp only [lifecycleOk, Bool.and_eq_true, decide_eq_true_eq] at hl
      simp only [pressesGuarded, Bool.and_eq_true] at hg
      rw [run_cons]
      simp only [lastPressFrom]
      obtain ⟨⟨⟨⟨_, hid⟩, _⟩, _⟩, hrest⟩ := hl
      obtain ⟨hg1, hg2⟩ := hg
      by_cases h1 : state = STATE_PRESS
      · rw [if_pos h1, Bool.and_eq_true] at hrest
        rw [if_pos h1] at hg1
        rw [if_pos h1]
        have hfresh : mkArgs args 4 ∉ active := by
          have := hrest.1
          simpa using this
        have hinv2 := RegInv_press s active last (mkArgs args 4) hinv hid hfresh hg1
        refine ih _ (mkArgs args 4 :: active) held _ ?_ hrest.2 hg2
        rw [step_state_map, step_current_height]
        subst h1
        exact hinv2
      · rw [if_neg h1] at hrest
        rw [if_neg h1]
        by_cases h2 : state = STATE_HOLD
        · rw [if_pos h2, Bool.and_eq_true] at hrest
          have hact : mkArgs args 4 ∈ active := by
            have := hrest.1
            simpa using this
          have hinv2 := RegInv_hold s active last (mkArgs args 4) hinv hact
          refine ih _ active held _ ?_ hrest.2 hg2
          rw [step_state_map, step_current_height]
          subst h2
          exact hinv2
        · rw [if_neg h2] at hrest
          by_cases h3 : state = STATE_RELEASE
          · rw [if_pos h3, Bool.and_eq_true] at hrest
            have hact : mkArgs args 4 ∈ active := by
              have := hrest.1
              simpa using this
            have hinv2 := RegInv_release s active last (mkArgs args 4) hinv hact
            refine ih _ _ held _ ?_ hrest.2 hg2
            rw [step_state_map, step_current_height]
            subst h3
            exact hinv2
          · rw [if_neg h3] at hrest
            exact absurd hrest (by simp)

/-- Claim C2, amended.  Along every sequence of capability calls that starts from
the zeroed state, respects the lifecycle contract and in which every Press of a
shifted key finds no registered height above `current_height` and
`current_height < 255`, at most one ID satisfies
`current_height == state_map[id] != 0`. -/
theorem unique_authority_of_guarded_presses (cs : List Call)
    (hl : lifecycleOk [] [] cs = true) (hg : pressesGuarded State.zeroed cs = true)
    (i j : Nat) (hi : holdsAuthority (run State.zeroed cs) i)
    (hj : holdsAuthority (run State.zeroed cs) j) : i = j := by
  obtain ⟨active, _, _, hdist, _⟩ :=
    RegInv_run cs State.zeroed [] [] none (RegInv_zeroed none) hl hg
  exact hdist i j hi.2 (hi.1.symm.trans hj.1)

/-- Claim C2 as stated fails: `collisionCalls` respects the lifecycle contract, and
after it the IDs 1 and 3 both have the height 1, which is `current_height`, so both
satisfy `current_height == state_map[id] != 0`. -/
theorem authority_not_unique :
    lifecycleOk [] [] collisionCalls = true
      ∧ (run State.zeroed collisionCalls).current_height = 1
      ∧ (run State.zeroed collisionCalls).state_map 1 = 1
      ∧ (run State.zeroed collisionCalls).state_map 3 = 1
      ∧ holdsAuthority (run State.zeroed collisionCalls) 1
      ∧ holdsAuthority (run State.zeroed collisionCalls) 3
      ∧ ¬ ∀ cs : List Call, lifecycleOk [] [] cs = true →
          ∀ i j : Nat, i < 100 → j < 100 →
            holdsAuthority (run State.zeroed cs) i → holdsAuthority (run State.zeroed cs) j →
            i = j := by
  refine ⟨by decide, by decide, by decide, by decide, by decide, by decide, ?_⟩
  intro h
  have h13 := h collisionCalls (by decide) 1 3 (by decide) (by decide) (by decide) (by decide)
  exact absurd h13 (by decide)

/-- The guard of the amended claim C2 is met by a rollover in which the held key
gets its Hold before the new key is pressed. -/
theorem unique_authority_of_guarded_presses_witness :
    lifecycleOk [] [] [keyOne 1, keyOne 2, keyTwo 1, keyTwo 3, keyOne 2, keyThree 1] = true
      ∧ pressesGuarded State.zeroed
          [keyOne 1, keyOne 2, keyTwo 1, keyTwo 3, keyOne 2, keyThree 1] = true
      ∧ holdsAuthority
          (run State.zeroed [keyOne 1, keyOne 2, keyTwo 1, keyTwo 3, keyOne 2, keyThree 1]) 3
      ∧ (3 : Nat) = 3 :=
  ⟨by decide, by decide, by decide,
    unique_authority_of_guarded_presses
      [keyOne 1, keyOne 2, keyTwo 1, keyTwo 3, keyOne 2, keyThree 1]
      (by decide) (by decide) 3 3 (by decide) (by decide)⟩

/-- Claim C5, amended.  Along every sequence of capability calls that starts from
the zeroed state, respects the lifecycle contract and in which every Press of a
shifted key finds no registered height above `current_height` and
`current_height < 255`: as long as the most recently pressed ID is still registered,
`register_ID` on any other registered ID returns 0 and leaves `current_height`
unchanged. -/
theorem last_registered_wins_of_guarded_presses (cs : List Call)
    (hl : lifecycleOk [] [] cs = true) (hg : pressesGuarded State.zeroed cs = true)
    (t j : Nat) (hlast : lastPress cs = some t)
    (hheld : (run State.zeroed cs).state_map t ≠ 0)
    (hj : j ≠ t) (hjreg : (run State.zeroed cs).state_map j ≠ 0) :
    (register_ID (run State.zeroed cs) j).1 = 0
      ∧ (register_ID (run State.zeroed cs) j).2.current_height
          = (run State.zeroed cs).current_height := by
  obtain ⟨active, _, _, _, htop⟩ :=
    RegInv_run cs State.zeroed [] [] none (RegInv_zeroed none) hl hg
  obtain ⟨_, hlow⟩ := htop t hlast hheld
  have hlt := hlow j hj
  have hnot : ¬ (run State.zeroed cs).state_map j ≥ (run State.zeroed cs).current_height := by
    omega
  rw [register_ID_result, register_ID_current_height, if_neg hjreg, if_neg hjreg, if_neg hnot,
    if_neg hnot]
  exact ⟨rfl, rfl⟩

theorem last_registered_wins_of_guarded_presses_witness :
    lifecycleOk [] [] [keyOne 1, keyOne 2, keyTwo 1] = true
      ∧ pressesGuarded State.zeroed [keyOne 1, keyOne 2, keyTwo 1] = true
      ∧ lastPress [keyOne 1, keyOne 2, keyTwo 1] = some 2
      ∧ (run State.zeroed [keyOne 1, keyOne 2, keyTwo 1]).state_map 2 ≠ 0
      ∧ (run State.zeroed [keyOne 1, keyOne 2, keyTwo 1]).state_map 1 ≠ 0
      ∧ (register_ID (run State.zeroed [keyOne 1, keyOne 2, keyTwo 1]) 1).1 = 0
      ∧ (register_ID (run State.zeroed [keyOne 1, keyOne 2, keyTwo 1]) 1).2.current_height
          = (run State.zeroed [keyOne 1, keyOne 2, keyTwo 1]).current_height :=
  ⟨by decide, by decide, by decide, by decide, by decide,
    last_registered_wins_of_guarded_presses [keyOne 1, keyOne 2, keyTwo 1]
      (by decide) (by decide) 2 1 (by decide) (by decide) (by decide) (by decide)⟩

/-- Claim C5 as stated fails: `overtakeCalls` respects the lifecycle contract; after
it ID 4 is the most recently pressed ID and is registered with height 1, which is
`current_height`, while the earlier ID 2 still has height 2, and `register_ID 2`
returns 2 and raises `current_height` from 1 to 2. -/
theorem last_registered_does_not_win :
    lifecycleOk [] [] overtakeCalls = true
      ∧ lastPress overtakeCalls = some 4
      ∧ (run State.zeroed overtakeCalls).state_map 4 = 1
      ∧ (run State.zeroed overtakeCalls).state_map 2 = 2
      ∧ (run State.zeroed overtakeCalls).current_height = 1
      ∧ (register_ID (run State.zeroed overtakeCalls) 2).1 = 2
      ∧ (register_ID (run State.zeroed overtakeCalls) 2).2.current_height = 2
      ∧ ¬ ∀ cs : List Call, lifecycleOk [] [] cs = true →
          ∀ t j : Nat, lastPress cs = some t → (run State.zeroed cs).state_map t ≠ 0 →
            j ≠ t → (run State.zeroed cs).state_map j ≠ 0 →
            (register_ID (run State.zeroed cs) j).1 = 0
              ∧ (register_ID (run State.zeroed cs) j).2.current_height
                  = (run State.zeroed cs).current_height := by
  refine ⟨by decide, by decide, by decide, by decide, by decide, by decide, by decide, ?_⟩
  intro h
  have h42 := h overtakeCalls (by decide) 4 2 (by decide) (by decide) (by decide) (by decide)
  exact absurd h42.1 (by decide)

/-! ## Claim C4: the fresh registration at height 255 -/

/-- One round of `rollRound` raises the height of ID 1 and `current_height` by two
and leaves ID 2 unregistered. -/
theorem rollRound_effect (s : State) (h : Nat) (hh : 1 ≤ h) (hle : h + 2 ≤ 255)
    (h1 : s.state_map 1 = h) (h2 : s.state_map 2 = 0) (hc : s.current_height = h) :
    (run s rollRound).state_map 1 = h + 2 ∧ (run s rollRound).state_map 2 = 0
      ∧ (run s rollRound).current_height = h + 2 := by
  have e1 : (h + 1) % 256 = h + 1 := by omega
  have e2 : (h + 1 + 1) % 256 = h + 2 := by omega
  have n1 : ¬ h = 0 := by omega
  have n2 : ¬ h + 1 ≤ h := by omega
  have n3 : ¬ h + 2 ≤ h + 1 := by omega
  simp only [rollRound, run, List.foldl, step, CustomAction_shiftedKey_state_map,
    CustomAction_shiftedKey_current_height, step_state_map, step_current_height]
  simp [CustomAction_shiftedKey_state_map, CustomAction_shiftedKey_current_height, mkArgs,
    registryStep_press, registryStep_release, register_ID_state_map, register_ID_current_height,
    unregister_ID_state_map, unregister_ID_current_height, h1, h2, hc, e1, e2, n1, n2, n3,
    upd_apply]

theorem rolls_effect (n : Nat) :
    ∀ (s : State) (h : Nat), 1 ≤ h → h + 2 * n ≤ 255 →
      s.state_map 1 = h → s.state_map 2 = 0 → s.current_height = h →
      (run s (List.replicate n rollRound).flatten).state_map 1 = h + 2 * n
        ∧ (run s (List.replicate n rollRound).flatten).state_map 2 = 0
        ∧ (run s (List.replicate n rollRound).flatten).current_height = h + 2 * n := by
  induction n with
  | zero =>
    intro s h _ _ h1 h2 hc
    exact ⟨h1, h2, hc⟩
  | succ n ih =>
    intro s h hh hle h1 h2 hc
    rw [List.replicate_succ, List.flatten_cons, run_append]
    obtain ⟨r1, r2, rc⟩ := rollRound_effect s h hh (by omega) h1 h2 hc
    obtain ⟨t1, t2, tc⟩ := ih (run s rollRound) (h + 2) (by omega) (by omega) r1 r2 rc
    refine ⟨?_, t2, ?_⟩
    · rw [t1]; ring
    · rw [tc]; ring

theorem rolls_lifecycleOk (n : Nat) :
    lifecycleOk [1] [] (List.replicate n rollRound).flatten = true := by
  induction n with
  | zero => rfl
  | succ n ih =>
    rw [List.replicate_succ, List.flatten_cons]
    have hstep : ∀ rest : List Call,
        lifecycleOk [1] [] (rollRound ++ rest) = lifecycleOk [1] [] rest := by
      intro rest
      rfl
    rw [hstep]
    exact ih

/-- The state reached by `rollCalls n`: ID 1 holds the height `2 n + 1`, which is
`current_height`, and ID 2 is not registered. -/
theorem rollCalls_effect (n : Nat) (hn : n ≤ 127) :
    lifecycleOk [] [] (rollCalls n) = true
      ∧ (run State.zeroed (rollCalls n)).state_map 1 = 2 * n + 1
      ∧ (run State.zeroed (rollCalls n)).state_map 2 = 0
      ∧ (run State.zeroed (rollCalls n)).current_height = 2 * n + 1 := by
  have hfirst : lifecycleOk [] [] (rollCalls n)
      = lifecycleOk [1] [] (List.replicate n rollRound).flatten := rfl
  refine ⟨by rw [hfirst]; exact rolls_lifecycleOk n, ?_⟩
  unfold rollCalls
  rw [run_cons]
  have h := rolls_effect n (step State.zeroed (Call.shiftedKey 1 [0, 4, 0, 4, 1])) 1
    (by omega) (by omega) (by decide) (by decide) (by decide)
  obtain ⟨a, b, c⟩ := h
  refine ⟨?_, b, ?_⟩
  · rw [a]; ring
  · rw [c]; ring

/-- Claim C4 (`register_ID` of an unregistered ID).  At `current_height == 255` the
fresh registration wraps: `rollCalls 127` respects the lifecycle contract and leads
from the zeroed state to `current_height == 255` with ID 2 unregistered; there
`register_ID 2` returns 0, sets `current_height` to 0 and leaves `state_map[2]` at 0,
so the ID is neither authoritative nor registered. -/
theorem register_ID_fresh_wraps_at_255 :
    lifecycleOk [] [] (rollCalls 127) = true
      ∧ (run State.zeroed (rollCalls 127)).current_height = 255
      ∧ (run State.zeroed (rollCalls 127)).state_map 2 = 0
      ∧ (register_ID (run State.zeroed (rollCalls 127)) 2).1 = 0
      ∧ (register_ID (run State.zeroed (rollCalls 127)) 2).2.current_height = 0
      ∧ (register_ID (run State.zeroed (rollCalls 127)) 2).2.state_map 2 = 0 := by
  obtain ⟨hl, _, h2, hc⟩ := rollCalls_effect 127 (by omega)
  refine ⟨hl, hc, h2, ?_, ?_, ?_⟩
  · rw [register_ID_result, if_pos h2, hc]
  · rw [register_ID_current_height, if_pos h2, hc]
  · rw [register_ID_state_map, if_pos h2, hc]
    simp

/-- Below height 255 the fresh registration is as claim C4 says: the result is not
zero, `current_height` grows by one, the ID gets that height and no other entry
changes. -/
theorem register_ID_fresh_below_255 (s : State) (id : Nat)
    (hfresh : s.state_map id = 0) (hc : s.current_height < 255) :
    (register_ID s id).1 ≠ 0
      ∧ (register_ID s id).2.current_height = s.current_height + 1
      ∧ (register_ID s id).2.state_map id = (register_ID s id).2.current_height
      ∧ (register_ID s id).2.current_height ≠ 0
      ∧ ∀ j, j ≠ id → (register_ID s id).2.state_map j = s.state_map j := by
  have hmod : (s.current_height + 1) % 256 = s.current_height + 1 := by omega
  rw [register_ID_result, register_ID_current_height, register_ID_state_map, if_pos hfresh,
    if_pos hfresh, if_pos hfresh, hmod]
  refine ⟨by omega, rfl, by simp, by omega, ?_⟩
  intro j hj
  simp [hj]

/-! ## Claim C9 and claim C8 -/

/-- Claim C9.  For an ID that is registered already, `register_ID` returns a value
different from 0, sets `current_height` to `state_map[id]` and changes nothing else
when `state_map[id] >= current_height`; otherwise it returns 0 and changes
nothing. -/
theorem register_ID_registered (s : State) (id : Nat) (hreg : s.state_map id ≠ 0) :
    (s.state_map id ≥ s.current_height →
        (register_ID s id).1 ≠ 0
          ∧ (register_ID s id).2.current_height = s.state_map id
          ∧ (register_ID s id).2.state_map = s.state_map
          ∧ (register_ID s id).2 = { s with current_height := s.state_map id })
      ∧ (s.state_map id < s.current_height →
          (register_ID s id).1 = 0
            ∧ (register_ID s id).2.current_height = s.current_height
            ∧ (register_ID s id).2.state_map = s.state_map
            ∧ (register_ID s id).2 = s) := by
  constructor
  · intro hge
    unfold register_ID
    rw [if_neg hreg, if_pos hge]
    exact ⟨hreg, rfl, rfl, rfl⟩
  · intro hlt
    have hnot : ¬ s.state_map id ≥ s.current_height := by omega
    unfold register_ID
    rw [if_neg hreg, if_neg hnot]
    exact ⟨rfl, rfl, rfl, rfl⟩

theorem register_ID_registered_witness :
    (run State.zeroed [keyOne 1, keyTwo 1]).state_map 1 ≠ 0
      ∧ (run State.zeroed [keyOne 1, keyTwo 1]).state_map 1
          < (run State.zeroed [keyOne 1, keyTwo 1]).current_height
      ∧ (register_ID (run State.zeroed [keyOne 1, keyTwo 1]) 1).1 = 0
      ∧ (register_ID (run State.zeroed [keyOne 1, keyTwo 1]) 1).2
          = run State.zeroed [keyOne 1, keyTwo 1] :=
  ⟨by decide, by decide,
    ((register_ID_registered (run State.zeroed [keyOne 1, keyTwo 1]) 1 (by decide)).2
      (by decide)).1,
    ((register_ID_registered (run State.zeroed [keyOne 1, keyTwo 1]) 1 (by decide)).2
      (by decide)).2.2.2⟩

theorem unregister_fold_current_height_zero (ids : List Nat) :
    ∀ s : State, s.current_height = 0 → (ids.foldl unregister_ID s).current_height = 0 := by
  induction ids with
  | nil => intro s h; exact h
  | cons i ids ih =>
    intro s h
    rw [List.foldl_cons]
    apply ih
    rw [unregister_ID_current_height, h]
    simp

theorem no_authority_of_current_height_zero (s : State) (h : s.current_height = 0) (j : Nat) :
    ¬ holdsAuthority s j := by
  intro hj
  exact hj.2 (hj.1 ▸ h)

/-- The two cases of a removal from a registry with the fields `m`, `c`, stated for
a state `t` whose registry fields are those of `unregister_ID`. -/
theorem unregister_cases (s t : State) (id : Nat)
    (hm : t.state_map = upd s.state_map id 0)
    (hc : t.current_height = if s.state_map id ≥ s.current_height then 0 else s.current_height) :
    (s.state_map id ≥ s.current_height →
        t.current_height = 0 ∧ t.state_map id = 0
          ∧ (∀ j, j ≠ id → t.state_map j = s.state_map j)
          ∧ ∀ (ids : List Nat) (j : Nat), ¬ holdsAuthority (ids.foldl unregister_ID t) j)
      ∧ (s.state_map id < s.current_height →
          t.current_height = s.current_height ∧ t.state_map id = 0
            ∧ ∀ j, j ≠ id → t.state_map j = s.state_map j) := by
  have hself : t.state_map id = 0 := by rw [hm]; simp
  have hother : ∀ j, j ≠ id → t.state_map j = s.state_map j := by
    intro j hj
    rw [hm]
    simp [hj]
  constructor
  · intro hge
    have hzero : t.current_height = 0 := by rw [hc, if_pos hge]
    refine ⟨hzero, hself, hother, ?_⟩
    intro ids j
    exact no_authority_of_current_height_zero _
      (unregister_fold_current_height_zero ids t hzero) j
  · intro hlt
    have hnot : ¬ s.state_map id ≥ s.current_height := by omega
    exact ⟨by rw [hc, if_neg hnot], hself, hother⟩

/-- Claim C8, amended.  If `state_map[id] >= current_height`, `unregister_ID` leaves
`current_height == 0` and `state_map[id] == 0`, changes no other entry, and no ID
satisfies `state == current_height != 0` afterwards, also not after further
`unregister_ID` calls, that is until some ID calls `register_ID`.  If
`state_map[id] < current_height` it clears `state_map[id]` only and leaves
`current_height` unchanged.  The same holds for the Release call of
`CustomAction_shiftedKey` for a registered ID. -/
theorem unregister_ID_resets_authority (s : State) (id : Nat) :
    ((s.state_map id ≥ s.current_height →
        (unregister_ID s id).current_height = 0 ∧ (unregister_ID s id).state_map id = 0
          ∧ (∀ j, j ≠ id → (unregister_ID s id).state_map j = s.state_map j)
          ∧ ∀ (ids : List Nat) (j : Nat),
              ¬ holdsAuthority (ids.foldl unregister_ID (unregister_ID s id)) j)
      ∧ (s.state_map id < s.current_height →
          (unregister_ID s id).current_height = s.current_height
            ∧ (unregister_ID s id).state_map id = 0
            ∧ ∀ j, j ≠ id → (unregister_ID s id).state_map j = s.state_map j))
    ∧ ∀ args : Nat → Nat, args 4 = id → s.state_map id ≠ 0 →
        (s.state_map id ≥ s.current_height →
          (CustomAction_shiftedKey s STATE_RELEASE args).current_height = 0
            ∧ (CustomAction_shiftedKey s STATE_RELEASE args).state_map id = 0
            ∧ (∀ j, j ≠ id →
                (CustomAction_shiftedKey s STATE_RELEASE args).state_map j = s.state_map j)
            ∧ ∀ (ids : List Nat) (j : Nat),
                ¬ holdsAuthority
                  (ids.foldl unregister_ID (CustomAction_shiftedKey s STATE_RELEASE args)) j)
        ∧ (s.state_map id < s.current_height →
            (CustomAction_shiftedKey s STATE_RELEASE args).current_height = s.current_height
              ∧ (CustomAction_shiftedKey s STATE_RELEASE args).state_map id = 0
              ∧ ∀ j, j ≠ id →
                  (CustomAction_shiftedKey s STATE_RELEASE args).state_map j = s.state_map j) := by
  refine ⟨unregister_cases s (unregister_ID s id) id (unregister_ID_state_map s id)
    (unregister_ID_current_height s id), ?_⟩
  intro args hargs hreg
  apply unregister_cases s (CustomAction_shiftedKey s STATE_RELEASE args) id
  · rw [CustomAction_shiftedKey_state_map, hargs, registryStep_release, unregister_ID_state_map,
      register_ID_state_map, if_neg hreg]
  · rw [CustomAction_shiftedKey_current_height, hargs, registryStep_release,
      unregister_ID_current_height, register_ID_state_map, register_ID_current_height,
      if_neg hreg, if_neg hreg]
    by_cases hge : s.state_map id ≥ s.current_height
    · simp [hge]
    · simp [hge]

/-- The state used for claim C8 has ID 2 on top, so the first case applies, and
`keyTwo 3` is the Release of that registered ID. -/
theorem unregister_ID_resets_authority_witness :
    (run State.zeroed [keyOne 1, keyOne 2, keyTwo 1]).state_map 2
        ≥ (run State.zeroed [keyOne 1, keyOne 2, keyTwo 1]).current_height
      ∧ (unregister_ID (run State.zeroed [keyOne 1, keyOne 2, keyTwo 1]) 2).current_height = 0
      ∧ (CustomAction_shiftedKey (run State.zeroed [keyOne 1, keyOne 2, keyTwo 1])
          STATE_RELEASE (mkArgs [0, 5, 0, 31, 2])).current_height = 0 :=
  ⟨by decide,
    ((unregister_ID_resets_authority
      (run State.zeroed [keyOne 1, keyOne 2, keyTwo 1]) 2).1.1 (by decide)).1,
    (((unregister_ID_resets_authority
      (run State.zeroed [keyOne 1, keyOne 2, keyTwo 1]) 2).2 (mkArgs [0, 5, 0, 31, 2])
        (by decide) (by decide)).1 (by decide)).1⟩

/-- Claim C8 as stated fails in its remark that no other ID satisfies
`state == current_height != 0` until it calls `register_ID`.  After Press(1),
Hold(1), Press(2) the heights are 1 and 2 and `current_height` is 2; the removal of
the top ID 2 sets `current_height` to 0; the registration of the new ID 3 sets it
to 1, and ID 1, which made no call, satisfies `state == current_height != 0`. -/
theorem authority_regained_without_register :
    (run State.zeroed [keyOne 1, keyOne 2, keyTwo 1]).state_map 1 = 1
      ∧ (run State.zeroed [keyOne 1, keyOne 2, keyTwo 1]).state_map 2 = 2
      ∧ (run State.zeroed [keyOne 1, keyOne 2, keyTwo 1]).current_height = 2
      ∧ (unregister_ID (run State.zeroed [keyOne 1, keyOne 2, keyTwo 1]) 2).current_height = 0
      ∧ (register_ID (unregister_ID (run State.zeroed [keyOne 1, keyOne 2, keyTwo 1]) 2)
          3).2.current_height = 1
      ∧ holdsAuthority
          (register_ID (unregister_ID (run State.zeroed [keyOne 1, keyOne 2, keyTwo 1]) 2) 3).2 1
      ∧ ¬ ∀ (s : State) (id j k : Nat), s.state_map id ≥ s.current_height → j ≠ id → k ≠ j →
          ¬ holdsAuthority (register_ID (unregister_ID s id) k).2 j := by
  refine ⟨by decide, by decide, by decide, by decide, by decide, by decide, ?_⟩
  intro h
  exact h (run State.zeroed [keyOne 1, keyOne 2, keyTwo 1]) 2 1 3
    (by decide) (by decide) (by decide) (by decide)

/-! ## Claim C10: Release edges and the output flags -/

theorem emitted_of_trace (s t : State) (out : List Emission) (h : t.trace = s.trace ++ out) :
    emitted s t = out := by
  unfold emitted
  rw [h]
  simp

theorem mod_codes_injective (i j : Nat) (hi : i < 4) (hj : j < 4)
    (h : mod_codes i = mod_codes j) : i = j := by
  interval_cases i <;> interval_cases j <;> simp_all [mod_codes]

theorem emitted_trans (s t u : State) (o1 o2 : List Emission)
    (h1 : t.trace = s.trace ++ o1) (h2 : u.trace = t.trace ++ o2) :
    u.trace = s.trace ++ (o1 ++ o2) := by
  rw [h2, h1, List.append_assoc]

theorem Initial_release_lshift_guarded (t : State) (x slot : Nat) (hslot : slot < 4)
    (h : (mod_codes slot, STATE_RELEASE) ∈ emitted t (Initial_release_lshift t x)) :
    t.mod_states slot ≠ 0 := by
  rw [emitted_of_trace _ _ _ (Initial_release_lshift_trace t x)] at h
  interval_cases slot <;> simp [mod_codes] at h
  tauto

theorem Initial_release_rshift_guarded (t : State) (x slot : Nat) (hslot : slot < 4)
    (h : (mod_codes slot, STATE_RELEASE) ∈ emitted t (Initial_release_rshift t x)) :
    t.mod_states slot ≠ 0 := by
  rw [emitted_of_trace _ _ _ (Initial_release_rshift_trace t x)] at h
  interval_cases slot <;> simp [mod_codes] at h
  tauto

theorem Initial_release_altgr_guarded (t : State) (x slot : Nat) (hslot : slot < 4)
    (h : (mod_codes slot, STATE_RELEASE) ∈ emitted t (Initial_release_altgr t x)) :
    t.mod_states slot ≠ 0 := by
  rw [emitted_of_trace _ _ _ (Initial_release_altgr_trace t x)] at h
  interval_cases slot <;> simp [mod_codes] at h
  tauto

theorem Initial_press_shift_guarded (t : State) (x slot : Nat)
    (h : (mod_codes slot, STATE_RELEASE) ∈ emitted t (Initial_press_shift t x)) :
    False := by
  rw [emitted_of_trace _ _ _ (Initial_press_shift_trace t x)] at h
  split_ifs at h <;> simp at h

theorem Initial_press_altgr_guarded (t : State) (x slot : Nat)
    (h : (mod_codes slot, STATE_RELEASE) ∈ emitted t (Initial_press_altgr t x)) :
    False := by
  rw [emitted_of_trace _ _ _ (Initial_press_altgr_trace t x)] at h
  split_ifs at h <;> simp at h

theorem Any_shift_guarded (t : State) (x slot : Nat) (hslot : slot < 4)
    (h : (mod_codes slot, STATE_RELEASE) ∈ emitted t (Any_shift t x)) :
    t.mod_states slot ≠ 0 := by
  rw [emitted_of_trace _ _ _ (Any_shift_trace t x)] at h
  interval_cases slot <;> split_ifs at h <;> simp [mod_codes] at h
  all_goals assumption

theorem Any_altgr_guarded (t : State) (x slot : Nat) (hslot : slot < 4)
    (h : (mod_codes slot, STATE_RELEASE) ∈ emitted t (Any_altgr t x)) :
    t.mod_states slot ≠ 0 := by
  rw [emitted_of_trace _ _ _ (Any_altgr_trace t x)] at h
  interval_cases slot <;> split_ifs at h <;> simp [mod_codes] at h
  all_goals assumption

theorem Last_release_shift_guarded (t : State) (x slot : Nat) (hslot : slot < 4)
    (h : (mod_codes slot, STATE_RELEASE) ∈ emitted t (Last_release_shift t x)) :
    t.mod_states slot ≠ 0 := by
  rw [emitted_of_trace _ _ _ (Last_release_shift_trace t x)] at h
  interval_cases slot <;> split_ifs at h <;> simp [mod_codes] at h
  all_goals assumption

theorem Last_release_altgr_guarded (t : State) (x slot : Nat) (hslot : slot < 4)
    (h : (mod_codes slot, STATE_RELEASE) ∈ emitted t (Last_release_altgr t x)) :
    t.mod_states slot ≠ 0 := by
  rw [emitted_of_trace _ _ _ (Last_release_altgr_trace t x)] at h
  interval_cases slot <;> simp [mod_codes] at h
  tauto

theorem ReleaseOnlyIf_refl (P : Nat → Prop) (s t : State) (h : t.trace = s.trace) :
    ReleaseOnlyIf P s t := by
  refine ⟨⟨[], by simp [h]⟩, ?_⟩
  intro slot _ hmem
  rw [emitted_of_trace s t [] (by simp [h])] at hmem
  simp at hmem

theorem ReleaseOnlyIf_comp (P Q : Nat → Prop) (s t u : State)
    (h1 : ReleaseOnlyIf P s t) (h2 : ReleaseOnlyIf Q t u) (hQP : ∀ slot, Q slot → P slot) :
    ReleaseOnlyIf P s u := by
  obtain ⟨⟨o1, e1⟩, g1⟩ := h1
  obtain ⟨⟨o2, e2⟩, g2⟩ := h2
  refine ⟨⟨o1 ++ o2, emitted_trans s t u o1 o2 e1 e2⟩, ?_⟩
  intro slot hslot hmem
  rw [emitted_of_trace s u _ (emitted_trans s t u o1 o2 e1 e2)] at hmem
  rcases List.mem_append.1 hmem with h | h
  · exact g1 slot hslot (by rw [emitted_of_trace s t o1 e1]; exact h)
  · exact hQP slot (g2 slot hslot (by rw [emitted_of_trace t u o2 e2]; exact h))

/-- The Press case emits Release edges only for slots whose flag is set at entry. -/
theorem shiftedKey_Initial_guarded (s : State) (shift altgr id : Nat) :
    ReleaseOnlyIf (fun slot => s.mod_states slot ≠ 0) s (shiftedKey_Initial s shift altgr id) := by
  unfold shiftedKey_Initial
  simp only []
  have h0 : ReleaseOnlyIf (fun slot => s.mod_states slot ≠ 0) s (register_ID s id).2 :=
    ReleaseOnlyIf_refl _ _ _ (register_ID_trace s id)
  have c0 : ∀ j, (register_ID s id).2.mod_states j ≠ 0 → s.mod_states j ≠ 0 := by
    intro j hj; simpa using hj
  generalize (register_ID s id).2 = s0 at h0 c0
  have h1 := ReleaseOnlyIf_comp _ _ s s0 (Initial_release_lshift s0 shift) h0
    ⟨⟨_, Initial_release_lshift_trace s0 shift⟩,
      fun slot hslot h => Initial_release_lshift_guarded s0 shift slot hslot h⟩ c0
  have c1 : ∀ j, (Initial_release_lshift s0 shift).mod_states j ≠ 0 → s.mod_states j ≠ 0 := by
    intro j hj
    apply c0
    rw [Initial_release_lshift_mod_states] at hj
    split_ifs at hj
    · rw [upd_apply] at hj; split_ifs at hj
      · exact absurd rfl hj
      · exact hj
    · exact hj
  generalize Initial_release_lshift s0 shift = s1 at h1 c1
  have h2 := ReleaseOnlyIf_comp _ _ s s1 (Initial_release_rshift s1 shift) h1
    ⟨⟨_, Initial_release_rshift_trace s1 shift⟩,
      fun slot hslot h => Initial_release_rshift_guarded s1 shift slot hslot h⟩ c1
  have c2 : ∀ j, (Initial_release_rshift s1 shift).mod_states j ≠ 0 → s.mod_states j ≠ 0 := by
    intro j hj
    apply c1
    rw [Initial_release_rshift_mod_states] at hj
    split_ifs at hj
    · rw [upd_apply] at hj; split_ifs at hj
      · exact absurd rfl hj
      · exact hj
    · exact hj
  generalize Initial_release_rshift s1 shift = s2 at h2 c2
  have h3 := ReleaseOnlyIf_comp _ _ s s2 (Initial_release_altgr s2 altgr) h2
    ⟨⟨_, Initial_release_altgr_trace s2 altgr⟩,
      fun slot hslot h => Initial_release_altgr_guarded s2 altgr slot hslot h⟩ c2
  generalize Initial_release_altgr s2 altgr = s3 at h3
  have h4 := ReleaseOnlyIf_comp _ (fun _ => False) s s3 (Initial_press_shift s3 shift) h3
    ⟨⟨_, Initial_press_shift_trace s3 shift⟩,
      fun slot _ h => Initial_press_shift_guarded s3 shift slot h⟩ (fun _ hf => hf.elim)
  generalize Initial_press_shift s3 shift = s4 at h4
  exact ReleaseOnlyIf_comp _ (fun _ => False) s s4 (Initial_press_altgr s4 altgr) h4
    ⟨⟨_, Initial_press_altgr_trace s4 altgr⟩,
      fun slot _ h => Initial_press_altgr_guarded s4 altgr slot h⟩ (fun _ hf => hf.elim)

/-- The Hold case emits Release edges only for slots whose flag is set at entry. -/
theorem shiftedKey_Any_guarded (s : State) (shift altgr id : Nat) :
    ReleaseOnlyIf (fun slot => s.mod_states slot ≠ 0) s (shiftedKey_Any s shift altgr id) := by
  unfold shiftedKey_Any
  simp only []
  have h0 : ReleaseOnlyIf (fun slot => s.mod_states slot ≠ 0) s (register_ID s id).2 :=
    ReleaseOnlyIf_refl _ _ _ (register_ID_trace s id)
  have c0 : ∀ j, (register_ID s id).2.mod_states j ≠ 0 → s.mod_states j ≠ 0 := by
    intro j hj; simpa using hj
  generalize register_ID s id = r at h0 c0
  split_ifs
  · have h1 := ReleaseOnlyIf_comp _ _ s r.2 (Any_shift r.2 shift) h0
      ⟨⟨_, Any_shift_trace r.2 shift⟩,
        fun slot hslot h => Any_shift_guarded r.2 shift slot hslot h⟩ c0
    refine ReleaseOnlyIf_comp _ _ s (Any_shift r.2 shift) _ h1
      ⟨⟨_, Any_altgr_trace _ altgr⟩,
        fun slot hslot h => Any_altgr_guarded _ altgr slot hslot h⟩ ?_
    intro j hj
    apply c0
    simpa using hj
  · exact h0

/-- The Release case emits Release edges only for slots whose flag is set at entry. -/
theorem shiftedKey_Last_guarded (s : State) (shift altgr id : Nat) :
    ReleaseOnlyIf (fun slot => s.mod_states slot ≠ 0) s (shiftedKey_Last s shift altgr id) := by
  unfold shiftedKey_Last
  simp only []
  have h0 : ReleaseOnlyIf (fun slot => s.mod_states slot ≠ 0) s (register_ID s id).2 :=
    ReleaseOnlyIf_refl _ _ _ (register_ID_trace s id)
  have c0 : ∀ j, (register_ID s id).2.mod_states j ≠ 0 → s.mod_states j ≠ 0 := by
    intro j hj; simpa using hj
  generalize register_ID s id = r at h0 c0
  refine ReleaseOnlyIf_comp _ (fun _ => False) s _ _ ?_
    (ReleaseOnlyIf_refl _ _ _ (unregister_ID_trace _ id)) (fun _ hf => hf.elim)
  split_ifs
  · have h1 := ReleaseOnlyIf_comp _ _ s r.2 (Last_release_shift r.2 shift) h0
      ⟨⟨_, Last_release_shift_trace r.2 shift⟩,
        fun slot hslot h => Last_release_shift_guarded r.2 shift slot hslot h⟩ c0
    refine ReleaseOnlyIf_comp _ _ s (Last_release_shift r.2 shift) _ h1
      ⟨⟨_, Last_release_altgr_trace _ altgr⟩,
        fun slot hslot h => Last_release_altgr_guarded _ altgr slot hslot h⟩ ?_
    intro j hj
    apply c0
    rw [Last_release_shift_mod_states] at hj
    split_ifs at hj
    · simp only [upd_apply] at hj
      split_ifs at hj
      · exact absurd rfl hj
      · exact absurd rfl hj
      · exact hj
    · exact hj
  · exact h0

theorem shiftedKey_switch_guarded (s : State) (state : Nat) (args : Nat → Nat) :
    ReleaseOnlyIf (fun slot => s.mod_states slot ≠ 0) s (shiftedKey_switch s state args) := by
  unfold shiftedKey_switch
  simp only []
  cases KLL_CapabilityState state
  · exact ReleaseOnlyIf_refl _ _ _ rfl
  · exact shiftedKey_Initial_guarded s _ _ _
  · exact shiftedKey_Any_guarded s _ _ _
  · exact shiftedKey_Last_guarded s _ _ _

theorem CustomAction_filterMod_trace (s : State) (state : Nat) (args : Nat → Nat) :
    (CustomAction_filterMod s state args).trace =
      s.trace ++
        (match KLL_CapabilityState state with
          | CapabilityState_Initial =>
            if s.current_height = 0 ∧ s.mod_states (args 0) = 0 then
              [(mod_codes (args 0), STATE_PRESS)] else []
          | CapabilityState_Any =>
            if s.current_height = 0 ∧ s.mod_states (args 0) ≠ 0 then
              [(mod_codes (args 0), STATE_HOLD)] else []
          | CapabilityState_Last =>
            if s.current_height = 0 ∧ s.mod_states (args 0) ≠ 0 then
              [(mod_codes (args 0), STATE_RELEASE)] else []
          | CapabilityState_None => []) := by
  unfold CustomAction_filterMod
  cases KLL_CapabilityState state <;> simp only []
  · simp
  · split_ifs <;> simp
  · split_ifs <;> simp
  · split_ifs <;> simp

theorem CustomAction_filterMod_guarded (s : State) (state : Nat) (args : Nat → Nat)
    (hkey : args 0 < 4) :
    ReleaseOnlyIf (fun slot => s.mod_states slot ≠ 0) s (CustomAction_filterMod s state args) := by
  refine ⟨⟨_, CustomAction_filterMod_trace s state args⟩, ?_⟩
  intro slot hslot h
  rw [emitted_of_trace _ _ _ (CustomAction_filterMod_trace s state args)] at h
  cases hk : KLL_CapabilityState state <;> rw [hk] at h <;> simp only [] at h
  · simp at h
  · split_ifs at h <;> simp at h
  · split_ifs at h <;> simp at h
  · split_ifs at h with hc
    · simp at h
      rw [mod_codes_injective slot (args 0) hslot hkey h]
      exact hc.2
    · simp at h

/-! ## Claim C7: the key code of a shifted key -/

theorem EmitsOnly_refl (P : Emission → Prop) (s t : State) (h : t.trace = s.trace) :
    EmitsOnly P s t :=
  ⟨[], by simp [h], by simp⟩

theorem EmitsOnly_comp (P : Emission → Prop) (s t u : State)
    (h1 : EmitsOnly P s t) (h2 : EmitsOnly P t u) : EmitsOnly P s u := by
  obtain ⟨o1, e1, p1⟩ := h1
  obtain ⟨o2, e2, p2⟩ := h2
  refine ⟨o1 ++ o2, emitted_trans s t u o1 o2 e1 e2, ?_⟩
  intro e he
  rcases List.mem_append.1 he with h | h
  · exact p1 e h
  · exact p2 e h

theorem EmitsOnly_emitted (P : Emission → Prop) (s t : State) (h : EmitsOnly P s t) :
    t.trace = s.trace ++ emitted s t ∧ ∀ e, e ∈ emitted s t → P e := by
  obtain ⟨o, e1, p1⟩ := h
  rw [emitted_of_trace s t o e1]
  exact ⟨e1, p1⟩

theorem Initial_release_lshift_mods (t : State) (x : Nat) :
    EmitsOnly (fun e => isModCode e.1 = true) t (Initial_release_lshift t x) := by
  refine ⟨_, Initial_release_lshift_trace t x, ?_⟩
  intro e he
  split_ifs at he <;> simp at he
  subst he; decide

theorem Initial_release_rshift_mods (t : State) (x : Nat) :
    EmitsOnly (fun e => isModCode e.1 = true) t (Initial_release_rshift t x) := by
  refine ⟨_, Initial_release_rshift_trace t x, ?_⟩
  intro e he
  split_ifs at he <;> simp at he
  subst he; decide

theorem Initial_release_altgr_mods (t : State) (x : Nat) :
    EmitsOnly (fun e => isModCode e.1 = true) t (Initial_release_altgr t x) := by
  refine ⟨_, Initial_release_altgr_trace t x, ?_⟩
  intro e he
  split_ifs at he <;> simp at he
  subst he; decide

theorem Initial_press_shift_mods (t : State) (x : Nat) :
    EmitsOnly (fun e => isModCode e.1 = true) t (Initial_press_shift t x) := by
  refine ⟨_, Initial_press_shift_trace t x, ?_⟩
  intro e he
  split_ifs at he <;> simp at he
  · rcases he with he | he <;> subst he <;> decide
  · subst he; decide

theorem Initial_press_altgr_mods (t : State) (x : Nat) :
    EmitsOnly (fun e => isModCode e.1 = true) t (Initial_press_altgr t x) := by
  refine ⟨_, Initial_press_altgr_trace t x, ?_⟩
  intro e he
  split_ifs at he <;> simp at he
  subst he; decide

theorem Any_shift_mods (t : State) (x : Nat) :
    EmitsOnly (fun e => isModCode e.1 = true) t (Any_shift t x) := by
  refine ⟨_, Any_shift_trace t x, ?_⟩
  intro e he
  split_ifs at he <;> simp at he <;>
    first
      | (subst he; decide)
      | (rcases he with he | he <;> subst he <;> decide)

theorem Any_altgr_mods (t : State) (x : Nat) :
    EmitsOnly (fun e => isModCode e.1 = true) t (Any_altgr t x) := by
  refine ⟨_, Any_altgr_trace t x, ?_⟩
  intro e he
  split_ifs at he <;> simp at he <;> (subst he; decide)

theorem Last_release_shift_mods (t : State) (x : Nat) :
    EmitsOnly (fun e => isModCode e.1 = true) t (Last_release_shift t x) := by
  refine ⟨_, Last_release_shift_trace t x, ?_⟩
  intro e he
  split_ifs at he <;> simp at he <;>
    first
      | (subst he; decide)
      | (rcases he with he | he <;> subst he <;> decide)

theorem Last_release_altgr_mods (t : State) (x : Nat) :
    EmitsOnly (fun e => isModCode e.1 = true) t (Last_release_altgr t x) := by
  refine ⟨_, Last_release_altgr_trace t x, ?_⟩
  intro e he
  split_ifs at he <;> simp at he
  subst he; decide

/-- The switch of the shifted key emits modifier codes only. -/
theorem shiftedKey_switch_mods (s : State) (state : Nat) (args : Nat → Nat) :
    EmitsOnly (fun e => isModCode e.1 = true) s (shiftedKey_switch s state args) := by
  unfold shiftedKey_switch
  simp only []
  have h0 : EmitsOnly (fun e => isModCode e.1 = true) s (register_ID s (args 4)).2 :=
    EmitsOnly_refl _ _ _ (register_ID_trace s _)
  cases KLL_CapabilityState state
  · exact EmitsOnly_refl _ _ _ rfl
  · unfold shiftedKey_Initial
    simp only []
    exact EmitsOnly_comp _ _ _ _ (EmitsOnly_comp _ _ _ _ (EmitsOnly_comp _ _ _ _
      (EmitsOnly_comp _ _ _ _ (EmitsOnly_comp _ _ _ _ h0 (Initial_release_lshift_mods _ _))
        (Initial_release_rshift_mods _ _)) (Initial_release_altgr_mods _ _))
      (Initial_press_shift_mods _ _)) (Initial_press_altgr_mods _ _)
  · unfold shiftedKey_Any
    simp only []
    split_ifs
    · exact EmitsOnly_comp _ _ _ _ (EmitsOnly_comp _ _ _ _ h0 (Any_shift_mods _ _))
        (Any_altgr_mods _ _)
    · exact h0
  · unfold shiftedKey_Last
    simp only []
    refine EmitsOnly_comp _ _ _ _ ?_ (EmitsOnly_refl _ _ _ (unregister_ID_trace _ _))
    split_ifs
    · exact EmitsOnly_comp _ _ _ _ (EmitsOnly_comp _ _ _ _ h0 (Last_release_shift_mods _ _))
        (Last_release_altgr_mods _ _)
    · exact h0

/-- The emissions of one call of the shifted key: those of the switch, then the key
code with the trigger state of the call. -/
theorem CustomAction_shiftedKey_emitted (s : State) (state : Nat) (args : Nat → Nat) :
    emitted s (CustomAction_shiftedKey s state args)
      = emitted s (shiftedKey_switch s state args) ++ [(resolved_key s args, state)] := by
  obtain ⟨htr, _⟩ := EmitsOnly_emitted _ _ _ (shiftedKey_switch_mods s state args)
  apply emitted_of_trace
  unfold CustomAction_shiftedKey
  simp only [send_trace]
  rw [htr]
  simp [emitted_of_trace s _ _ htr]

theorem CustomAction_filterMod_mods (s : State) (state : Nat) (args : Nat → Nat)
    (hkey : args 0 < 4) :
    EmitsOnly (fun e => isModCode e.1 = true) s (CustomAction_filterMod s state args) := by
  refine ⟨_, CustomAction_filterMod_trace s state args, ?_⟩
  have hcode : isModCode (mod_codes (args 0)) = true := by
    generalize args 0 = k at hkey
    interval_cases k <;> decide
  intro e he
  cases hk : KLL_CapabilityState state <;> rw [hk] at he <;> simp only [] at he
  · simp at he
  · split_ifs at he <;> simp at he
    subst he; exact hcode
  · split_ifs at he <;> simp at he
    subst he; exact hcode
  · split_ifs at he <;> simp at he
    subst he; exact hcode

theorem edgesFor_append (k1 k3 : Nat) (a b : List Emission) :
    edgesFor k1 k3 (a ++ b) = edgesFor k1 k3 a ++ edgesFor k1 k3 b := by
  simp [edgesFor]

theorem edgesFor_mods (k1 k3 : Nat) (hk1 : isModCode k1 = false) (hk3 : isModCode k3 = false)
    (mods : List Emission) (h : ∀ e, e ∈ mods → isModCode e.1 = true) :
    edgesFor k1 k3 mods = [] := by
  unfold edgesFor
  rw [List.map_eq_nil_iff, List.filter_eq_nil_iff]
  intro e he hmatch
  have hmod := h e he
  simp only [Bool.or_eq_true, beq_iff_eq] at hmatch
  rcases hmatch with h1 | h3
  · rw [h1, hk1] at hmod; exact absurd hmod (by simp)
  · rw [h3, hk3] at hmod; exact absurd hmod (by simp)

theorem statesOf_cons (id : Nat) (c : Call) (cs : List Call) :
    statesOf id (c :: cs) = statesOf id [c] ++ statesOf id cs := by
  cases c with
  | filterMod state args => simp [statesOf]
  | shiftedKey state args =>
    simp only [statesOf]
    split_ifs <;> simp

/-- One call that leaves the key codes `k1`, `k3` to the shifted key `id` adds to the
trace, under these two codes, exactly the trigger state of a call of that key. -/
theorem step_key_edges (s : State) (c : Call) (id k1 k3 : Nat)
    (hk1 : isModCode k1 = false) (hk3 : isModCode k3 = false)
    (hc : leavesKeyCodes id k1 k3 c = true) :
    ∃ out, (step s c).trace = s.trace ++ out ∧ edgesFor k1 k3 out = statesOf id [c] := by
  cases c with
  | filterMod state args =>
    simp only [leavesKeyCodes, decide_eq_true_eq] at hc
    obtain ⟨out, htr, hmods⟩ := CustomAction_filterMod_mods s state (mkArgs args) hc
    exact ⟨out, htr, by rw [edgesFor_mods k1 k3 hk1 hk3 out hmods]; rfl⟩
  | shiftedKey state args =>
    obtain ⟨htr, hmods⟩ :=
      EmitsOnly_emitted _ _ _ (shiftedKey_switch_mods s state (mkArgs args))
    refine ⟨emitted s (shiftedKey_switch s state (mkArgs args))
      ++ [(resolved_key s (mkArgs args), state)], ?_, ?_⟩
    · show (CustomAction_shiftedKey s state (mkArgs args)).trace = _
      unfold CustomAction_shiftedKey
      simp only [send_trace]
      rw [htr]
      simp [emitted_of_trace s _ _ htr]
    · rw [edgesFor_append, edgesFor_mods k1 k3 hk1 hk3 _ hmods, List.nil_append]
      simp only [leavesKeyCodes] at hc
      simp only [statesOf, edgesFor, resolved_key]
      by_cases hid : mkArgs args 4 = id
      · rw [if_pos hid] at hc ⊢
        simp only [Bool.and_eq_true, beq_iff_eq] at hc
        split_ifs <;> simp [hc.1, hc.2]
      · rw [if_neg hid] at hc ⊢
        simp only [Bool.and_eq_true, bne_iff_ne, ne_eq] at hc
        obtain ⟨⟨⟨a, b⟩, c⟩, d⟩ := hc
        split_ifs <;> simp [a, b, c, d]

theorem run_key_edges (id k1 k3 : Nat)
    (hk1 : isModCode k1 = false) (hk3 : isModCode k3 = false) (cs : List Call) :
    ∀ s : State, (∀ c, c ∈ cs → leavesKeyCodes id k1 k3 c = true) →
      ∃ out, (run s cs).trace = s.trace ++ out ∧ edgesFor k1 k3 out = statesOf id cs := by
  induction cs with
  | nil =>
    intro s _
    exact ⟨[], by simp [run], rfl⟩
  | cons c cs ih =>
    intro s hall
    obtain ⟨o1, e1, p1⟩ :=
      step_key_edges s c id k1 k3 hk1 hk3 (hall c (List.mem_cons_self c cs))
    obtain ⟨o2, e2, p2⟩ := ih (step s c) (fun d hd => hall d (List.mem_cons_of_mem c hd))
    refine ⟨o1 ++ o2, ?_, ?_⟩
    · rw [run_cons]
      exact emitted_trans s (step s c) _ o1 o2 e1 e2
    · rw [edgesFor_append, p1, p2, ← statesOf_cons]

theorem keyEmissions_edges (id : Nat) (cs : List Call) :
    ∀ s : State, (keyEmissions id s cs).map Prod.snd = statesOf id cs := by
  induction cs with
  | nil => intro s; rfl
  | cons c cs ih =>
    intro s
    cases c with
    | filterMod state args =>
      simp only [keyEmissions, statesOf]
      exact ih _
    | shiftedKey state args =>
      simp only [keyEmissions, statesOf, List.map_append, ih]
      have hlast : (emitted s (step s (Call.shiftedKey state args))).getLast?
          = some (resolved_key s (mkArgs args), state) := by
        show (emitted s (CustomAction_shiftedKey s state (mkArgs args))).getLast? = _
        rw [CustomAction_shiftedKey_emitted]
        simp
      rw [hlast]
      split_ifs <;> simp

/-- Claim C7.  Every call of `CustomAction_shiftedKey`, in any state and with any
arguments, emits the emissions of its switch, all of them for modifier codes, and
then, as its final emission, once, the resolved key code with the trigger state of
the call; the code is `args[3]` if `is_shifted` holds at entry and `args[1]`
otherwise; a key code that is no modifier code is the code of exactly one emission of
the call.  Hence the final emissions of the calls of one ID carry the trigger states
of these calls in order, and in any sequence of calls in which the two key codes of
the ID are no modifier codes and are used by no other shifted key the edges emitted
under these key codes are these trigger states: one Press, Holds and one Release for
a lifecycle Press, Hold*, Release, whatever modifier edges are interleaved. -/
theorem shiftedKey_key_round_trip :
    (∀ (s : State) (state : Nat) (args : Nat → Nat),
        emitted s (CustomAction_shiftedKey s state args)
            = emitted s (shiftedKey_switch s state args) ++ [(resolved_key s args, state)]
          ∧ resolved_key s args = (if is_shifted s ≠ 0 then args 3 else args 1)
          ∧ (∀ e, e ∈ emitted s (shiftedKey_switch s state args) → isModCode e.1 = true)
          ∧ (isModCode (resolved_key s args) = false →
              (emitted s (CustomAction_shiftedKey s state args)).filter
                  (fun e => e.1 == resolved_key s args)
                = [(resolved_key s args, state)]))
      ∧ (∀ (s : State) (cs : List Call) (id : Nat),
          (keyEmissions id s cs).map Prod.snd = statesOf id cs)
      ∧ ∀ (s : State) (cs : List Call) (id k1 k3 : Nat),
          isModCode k1 = false → isModCode k3 = false →
          (∀ c, c ∈ cs → leavesKeyCodes id k1 k3 c = true) →
          edgesFor k1 k3 (emitted s (run s cs)) = statesOf id cs
            ∧ ∀ n : Nat,
                statesOf id cs = STATE_PRESS :: (List.replicate n STATE_HOLD ++ [STATE_RELEASE]) →
                edgesFor k1 k3 (emitted s (run s cs))
                  = STATE_PRESS :: (List.replicate n STATE_HOLD ++ [STATE_RELEASE]) := by
  refine ⟨?_, ?_, ?_⟩
  · intro s state args
    have hmods := (EmitsOnly_emitted _ _ _ (shiftedKey_switch_mods s state args)).2
    refine ⟨CustomAction_shiftedKey_emitted s state args, rfl, hmods, ?_⟩
    intro hkey
    rw [CustomAction_shiftedKey_emitted, List.filter_append]
    have hnil : (emitted s (shiftedKey_switch s state args)).filter
        (fun e => e.1 == resolved_key s args) = [] := by
      rw [List.filter_eq_nil_iff]
      intro e he hmatch
      have hmod := hmods e he
      simp only [beq_iff_eq] at hmatch
      rw [hmatch, hkey] at hmod
      exact absurd hmod (by simp)
    rw [hnil]
    simp
  · intro s cs id
    exact keyEmissions_edges id cs s
  · intro s cs id k1 k3 hk1 hk3 hall
    obtain ⟨out, htr, hedges⟩ := run_key_edges id k1 k3 hk1 hk3 cs s hall
    rw [emitted_of_trace s _ out htr]
    exact ⟨hedges, fun n hn => hedges.trans hn⟩

/-- The lifecycle of key 1 in `rolloverCalls`, with the calls of key 2 interleaved:
under the key codes 4 and 30 the trace holds one Press, five Holds and one Release. -/
theorem shiftedKey_key_round_trip_witness :
    isModCode 4 = false ∧ isModCode 30 = false
      ∧ (∀ c, c ∈ rolloverCalls → leavesKeyCodes 1 4 30 c = true)
      ∧ statesOf 1 rolloverCalls
          = STATE_PRESS :: (List.replicate 5 STATE_HOLD ++ [STATE_RELEASE])
      ∧ edgesFor 4 30 (emitted State.zeroed (run State.zeroed rolloverCalls))
          = STATE_PRESS :: (List.replicate 5 STATE_HOLD ++ [STATE_RELEASE]) :=
  ⟨by decide, by decide, by decide, by decide,
    (shiftedKey_key_round_trip.2.2 State.zeroed rolloverCalls 1 4 30 (by decide) (by decide)
      (by decide)).2 5 (by decide)⟩

/-- Claim C10.  For every state and every call, a Release edge for the code of a
modifier slot is emitted by `CustomAction_filterMod` and by the switch of
`CustomAction_shiftedKey` (Press, Hold or Release) only if `mod_states[slot] != 0`
when the call is entered; the flag is not written between the entry and the
statement that emits the edge, for each statement of the switch emits such an edge
only if the flag is set in the state the statement starts from.  The call of the
shifted key emits nothing else but its key code. -/
theorem release_edges_need_output_flag (s : State) (state : Nat) (args : Nat → Nat)
    (slot : Nat) (hslot : slot < 4) :
    (args 0 < 4 →
        (mod_codes slot, STATE_RELEASE) ∈ emitted s (CustomAction_filterMod s state args) →
        s.mod_states slot ≠ 0)
      ∧ ((mod_codes slot, STATE_RELEASE) ∈ emitted s (shiftedKey_switch s state args) →
          s.mod_states slot ≠ 0)
      ∧ (∀ (shift altgr : Nat) (B : State → State), B ∈ switchStatements shift altgr →
          ∀ t : State, (mod_codes slot, STATE_RELEASE) ∈ emitted t (B t) →
            t.mod_states slot ≠ 0)
      ∧ emitted s (CustomAction_shiftedKey s state args)
          = emitted s (shiftedKey_switch s state args) ++ [(resolved_key s args, state)] := by
  refine ⟨?_, ?_, ?_, CustomAction_shiftedKey_emitted s state args⟩
  · intro hkey h
    exact (CustomAction_filterMod_guarded s state args hkey).2 slot hslot h
  · intro h
    exact (shiftedKey_switch_guarded s state args).2 slot hslot h
  · intro shift altgr B hB t h
    simp only [switchStatements, List.mem_cons, List.mem_singleton, List.not_mem_nil,
      or_false] at hB
    rcases hB with hB | hB | hB | hB | hB | hB | hB | hB | hB <;> subst hB
    · exact Initial_release_lshift_guarded t shift slot hslot h
    · exact Initial_release_rshift_guarded t shift slot hslot h
    · exact Initial_release_altgr_guarded t altgr slot hslot h
    · exact (Initial_press_shift_guarded t shift slot h).elim
    · exact (Initial_press_altgr_guarded t altgr slot h).elim
    · exact Any_shift_guarded t shift slot hslot h
    · exact Any_altgr_guarded t altgr slot hslot h
    · exact Last_release_shift_guarded t shift slot hslot h
    · exact Last_release_altgr_guarded t altgr slot hslot h

/-- After the Press of key 1, which sets the LeftShift flag, the Press of key 2
emits the Release edge of LeftShift. -/
theorem release_edges_need_output_flag_witness :
    (mod_codes 0, STATE_RELEASE)
        ∈ emitted (run State.zeroed [keyOne 1])
            (shiftedKey_switch (run State.zeroed [keyOne 1]) 1 (mkArgs [0, 5, 0, 31, 2]))
      ∧ (run State.zeroed [keyOne 1]).mod_states 0 ≠ 0 :=
  ⟨by decide,
    (release_edges_need_output_flag (run State.zeroed [keyOne 1]) 1 (mkArgs [0, 5, 0, 31, 2]) 0
      (by decide)).2.1 (by decide)⟩

/-! ## Claims C1 and C6: the Hold case does not record what it sends -/

/-- Claim C1 (no double press).  `rolloverCalls` respects the lifecycle contract, and
its trace holds two Press edges for the LeftShift code 0xE1 with no Release edge for
that code between them: after key 2 has released LeftShift and has been released
itself, each Hold of key 1 sends the Press edge again, because the Hold case sends
it without setting `mod_states[LSHIFT_INDEX]`. -/
theorem shiftedKey_hold_double_press :
    lifecycleOk [] [] rolloverCalls = true
      ∧ (run State.zeroed rolloverCalls).trace =
          [(0xE1, STATE_PRESS), (4, STATE_PRESS),
           (0xE1, STATE_HOLD), (4, STATE_HOLD), (0xE1, STATE_RELEASE), (5, STATE_PRESS),
           (4, STATE_HOLD), (5, STATE_HOLD),
           (4, STATE_HOLD), (5, STATE_RELEASE),
           (0xE1, STATE_PRESS), (4, STATE_HOLD),
           (0xE1, STATE_PRESS), (4, STATE_HOLD),
           (4, STATE_RELEASE)]
      ∧ noDoublePress (mod_codes LSHIFT_INDEX) false (run State.zeroed rolloverCalls).trace
          = false := by
  refine ⟨by decide, by decide, by decide⟩

/-- The Press case has a second way to a double Press: with RightShift pressed as a
plain modifier, the Press of a key whose shifted interpretation wants shift sends
the RightShift Press edge again without looking at `mod_states[RSHIFT_INDEX]`. -/
theorem shiftedKey_press_double_rshift :
    lifecycleOk [] [] [Call.filterMod 1 [1], Call.shiftedKey 1 [0, 4, 1, 30, 1]] = true
      ∧ (run State.zeroed [Call.filterMod 1 [1], Call.shiftedKey 1 [0, 4, 1, 30, 1]]).trace
          = [(0xE5, STATE_PRESS), (0xE1, STATE_PRESS), (0xE5, STATE_PRESS), (30, STATE_PRESS)]
      ∧ noDoublePress (mod_codes RSHIFT_INDEX) false
          (run State.zeroed [Call.filterMod 1 [1], Call.shiftedKey 1 [0, 4, 1, 30, 1]]).trace
          = false := by
  refine ⟨by decide, by decide, by decide⟩

/-- Claim C6 (the output flag tracks the host view).  After `rolloverHead`, which
respects the lifecycle contract, the trace ends with an unmatched Press edge for the
LeftShift code while `mod_states[LSHIFT_INDEX]` is 0: the Hold case sent the Press
edge without setting the flag. -/
theorem shiftedKey_hold_flag_stale :
    lifecycleOk [] [] rolloverHead = true
      ∧ (run State.zeroed rolloverHead).trace =
          [(0xE1, STATE_PRESS), (4, STATE_PRESS),
           (0xE1, STATE_HOLD), (4, STATE_HOLD), (0xE1, STATE_RELEASE), (5, STATE_PRESS),
           (4, STATE_HOLD), (5, STATE_HOLD),
           (4, STATE_HOLD), (5, STATE_RELEASE),
           (0xE1, STATE_PRESS), (4, STATE_HOLD)]
      ∧ hostPressed (mod_codes LSHIFT_INDEX) (run State.zeroed rolloverHead).trace = true
      ∧ (run State.zeroed rolloverHead).mod_states LSHIFT_INDEX = 0 := by
  refine ⟨by decide, by decide, by decide, by decide⟩

/-! ## Claim C3: the effective shift -/

/-- Claim C3, amended.  `is_shifted` returns 0 or 1, and it returns 1 exactly when
(`mod_filter[LeftShift] != 0` or `mod_filter[RightShift] != 0`) XOR
(`mod_toggles[CapsLock] != 0`). -/
theorem is_shifted_spec (s : State) :
    (is_shifted s = 0 ∨ is_shifted s = 1)
      ∧ (is_shifted s ≠ 0 ↔
          Xor' (s.mod_filter LSHIFT_INDEX ≠ 0 ∨ s.mod_filter RSHIFT_INDEX ≠ 0)
            (s.mod_toggles CAPS_INDEX ≠ 0)) := by
  unfold is_shifted Xor'
  by_cases h1 : s.mod_filter LSHIFT_INDEX = 0 <;> by_cases h2 : s.mod_filter RSHIFT_INDEX = 0 <;>
    by_cases h3 : s.mod_toggles CAPS_INDEX = 0 <;> simp [h1, h2, h3]

/-- Claim C3 as stated fails: after one Press and one Release of CapsLock the filter
values are 0 and the CapsLock toggle is 2, an even value, and `is_shifted` returns
1. -/
theorem is_shifted_not_toggle_parity :
    (∀ i, i < 4 → capsLocked.mod_filter i ≤ 1 ∧ capsLocked.mod_toggles i ≤ 3)
      ∧ capsLocked.mod_toggles CAPS_INDEX = 2
      ∧ is_shifted capsLocked = 1
      ∧ ¬ (is_shifted capsLocked ≠ 0 ↔
            Xor' (capsLocked.mod_filter LSHIFT_INDEX ≠ 0 ∨ capsLocked.mod_filter RSHIFT_INDEX ≠ 0)
              (capsLocked.mod_toggles CAPS_INDEX % 2 = 1)) := by
  refine ⟨by decide, by decide, by decide, by decide⟩

/-! ## The three cases of the switch, computed from the entry state -/

/-- The emissions of the Press case in terms of the state at entry. -/
theorem shiftedKey_Initial_trace (s : State) (shift altgr id : Nat) :
    (shiftedKey_Initial s shift altgr id).trace =
      s.trace
        ++ ((if shift = 0 ∧ s.mod_states LSHIFT_INDEX ≠ 0 then [(LSHIFT_CODE, STATE_RELEASE)]
              else [])
          ++ ((if shift = 0 ∧ s.mod_states RSHIFT_INDEX ≠ 0 then [(RSHIFT_CODE, STATE_RELEASE)]
                else [])
            ++ ((if altgr = 0 ∧ s.mod_states ALTGR_INDEX ≠ 0 then [(ALTGR_CODE, STATE_RELEASE)]
                  else [])
              ++ ((if shift ≠ 0 ∧ s.mod_states LSHIFT_INDEX = 0 then
                    (if s.mod_filter RSHIFT_INDEX ≠ 0 then
                      [(LSHIFT_CODE, STATE_PRESS), (RSHIFT_CODE, STATE_PRESS)]
                    else [(LSHIFT_CODE, STATE_PRESS)])
                  else [])
                ++ (if altgr ≠ 0 ∧ s.mod_states ALTGR_INDEX = 0 then
                      [(ALTGR_CODE, STATE_PRESS)]
                    else []))))) := by
  unfold shiftedKey_Initial
  simp only [Initial_press_altgr_trace, Initial_press_shift_trace, Initial_release_altgr_trace,
    Initial_release_rshift_trace, Initial_release_lshift_trace, register_ID_trace,
    Initial_press_shift_mod_states, Initial_release_altgr_mod_states,
    Initial_release_rshift_mod_states, Initial_release_lshift_mod_states,
    register_ID_mod_states, Initial_release_altgr_mod_filter, Initial_release_rshift_mod_filter,
    Initial_release_lshift_mod_filter, register_ID_mod_filter, List.append_assoc]
  by_cases hs : shift = 0 <;> by_cases ha : altgr = 0 <;>
    by_cases h0 : s.mod_states LSHIFT_INDEX = 0 <;>
    by_cases h1 : s.mod_states RSHIFT_INDEX = 0 <;>
    by_cases h3 : s.mod_states ALTGR_INDEX = 0 <;>
    by_cases hf : s.mod_filter RSHIFT_INDEX = 0 <;>
    simp [hs, ha, h0, h1, h3, hf, upd_apply]

/-- The output flags after the Press case in terms of the state at entry. -/
theorem shiftedKey_Initial_mod_states (s : State) (shift altgr id : Nat) :
    (shiftedKey_Initial s shift altgr id).mod_states LSHIFT_INDEX
        = (if shift = 0 then 0
           else if s.mod_states LSHIFT_INDEX = 0 then 1 else s.mod_states LSHIFT_INDEX)
      ∧ (shiftedKey_Initial s shift altgr id).mod_states RSHIFT_INDEX
        = (if shift = 0 then 0
           else if s.mod_states LSHIFT_INDEX = 0 ∧ s.mod_filter RSHIFT_INDEX ≠ 0 then 1
           else s.mod_states RSHIFT_INDEX)
      ∧ (shiftedKey_Initial s shift altgr id).mod_states ALTGR_INDEX
        = (if altgr = 0 then 0
           else if s.mod_states ALTGR_INDEX = 0 then 1 else s.mod_states ALTGR_INDEX)
      ∧ (shiftedKey_Initial s shift altgr id).mod_states CAPS_INDEX
        = s.mod_states CAPS_INDEX := by
  unfold shiftedKey_Initial
  simp only [Initial_press_altgr_mod_states, Initial_press_shift_mod_states,
    Initial_release_altgr_mod_states, Initial_release_rshift_mod_states,
    Initial_release_lshift_mod_states, register_ID_mod_states,
    Initial_release_altgr_mod_filter, Initial_release_rshift_mod_filter,
    Initial_release_lshift_mod_filter, register_ID_mod_filter]
  by_cases hs : shift = 0 <;> by_cases ha : altgr = 0 <;>
    by_cases h0 : s.mod_states LSHIFT_INDEX = 0 <;>
    by_cases h1 : s.mod_states RSHIFT_INDEX = 0 <;>
    by_cases h3 : s.mod_states ALTGR_INDEX = 0 <;>
    by_cases hf : s.mod_filter RSHIFT_INDEX = 0 <;>
    simp [hs, ha, h0, h1, h3, hf, upd_apply]

@[simp] theorem shiftedKey_Initial_mod_filter (s : State) (shift altgr id : Nat) :
    (shiftedKey_Initial s shift altgr id).mod_filter = s.mod_filter := by
  unfold shiftedKey_Initial
  simp

@[simp] theorem shiftedKey_Initial_mod_toggles (s : State) (shift altgr id : Nat) :
    (shiftedKey_Initial s shift altgr id).mod_toggles = s.mod_toggles := by
  unfold shiftedKey_Initial
  simp

/-- The Hold case in terms of the state at entry: only the registry and the trace
change. -/
theorem shiftedKey_Any_trace (s : State) (shift altgr id : Nat) :
    (shiftedKey_Any s shift altgr id).trace =
      s.trace
        ++ (if (register_ID s id).1 ≠ 0 then
              (if shift ≠ 0 then
                (if s.mod_states LSHIFT_INDEX ≠ 0 then [(LSHIFT_CODE, STATE_HOLD)]
                  else [(LSHIFT_CODE, STATE_PRESS)])
                ++ (if s.mod_filter RSHIFT_INDEX ≠ 0 then
                      (if s.mod_states RSHIFT_INDEX ≠ 0 then [(RSHIFT_CODE, STATE_HOLD)]
                        else [(RSHIFT_CODE, STATE_PRESS)])
                    else [])
              else (if s.mod_states LSHIFT_INDEX ≠ 0 then [(LSHIFT_CODE, STATE_RELEASE)]
                else []))
              ++ (if altgr ≠ 0 then
                    (if s.mod_states ALTGR_INDEX ≠ 0 then [(ALTGR_CODE, STATE_HOLD)]
                      else [(ALTGR_CODE, STATE_PRESS)])
                  else (if s.mod_states ALTGR_INDEX ≠ 0 then [(ALTGR_CODE, STATE_RELEASE)]
                    else []))
            else []) := by
  unfold shiftedKey_Any
  simp only []
  by_cases hr : (register_ID s id).1 ≠ 0
  · rw [if_pos hr, if_pos hr]
    simp only [Any_altgr_trace, Any_shift_trace, Any_shift_mod_states, Any_shift_mod_filter,
      register_ID_trace, register_ID_mod_states, register_ID_mod_filter, List.append_assoc]
  · rw [if_neg hr, if_neg hr]
    simp

@[simp] theorem shiftedKey_Any_mod_states (s : State) (shift altgr id : Nat) :
    (shiftedKey_Any s shift altgr id).mod_states = s.mod_states := by
  unfold shiftedKey_Any
  simp only []
  split_ifs <;> simp

@[simp] theorem shiftedKey_Any_mod_filter (s : State) (shift altgr id : Nat) :
    (shiftedKey_Any s shift altgr id).mod_filter = s.mod_filter := by
  unfold shiftedKey_Any
  simp only []
  split_ifs <;> simp

@[simp] theorem shiftedKey_Any_mod_toggles (s : State) (shift altgr id : Nat) :
    (shiftedKey_Any s shift altgr id).mod_toggles = s.mod_toggles := by
  unfold shiftedKey_Any
  simp only []
  split_ifs <;> simp

/-- The emissions of the Release case in terms of the state at entry. -/
theorem shiftedKey_Last_trace (s : State) (shift altgr id : Nat) :
    (shiftedKey_Last s shift altgr id).trace =
      s.trace
        ++ (if (register_ID s id).1 ≠ 0 then
              (if shift ≠ 0 then
                (if s.mod_states LSHIFT_INDEX ≠ 0 then [(LSHIFT_CODE, STATE_RELEASE)] else [])
                ++ (if s.mod_states RSHIFT_INDEX ≠ 0 then [(RSHIFT_CODE, STATE_RELEASE)] else [])
              else [])
              ++ (if altgr ≠ 0 ∧ s.mod_states ALTGR_INDEX ≠ 0 then
                    [(ALTGR_CODE, STATE_RELEASE)]
                  else [])
            else []) := by
  unfold shiftedKey_Last
  simp only [unregister_ID_trace]
  by_cases hr : (register_ID s id).1 ≠ 0
  · rw [if_pos hr, if_pos hr]
    simp only [Last_release_altgr_trace, Last_release_shift_trace,
      Last_release_shift_mod_states, register_ID_trace, register_ID_mod_states,
      List.append_assoc]
    by_cases hs : shift = 0 <;> simp [hs, upd_apply]
  · rw [if_neg hr, if_neg hr]
    simp

@[simp] theorem shiftedKey_Last_mod_filter (s : State) (shift altgr id : Nat) :
    (shiftedKey_Last s shift altgr id).mod_filter = s.mod_filter := by
  unfold shiftedKey_Last
  simp only [unregister_ID_mod_filter]
  split_ifs <;> simp

@[simp] theorem shiftedKey_Last_mod_toggles (s : State) (shift altgr id : Nat) :
    (shiftedKey_Last s shift altgr id).mod_toggles = s.mod_toggles := by
  unfold shiftedKey_Last
  simp only [unregister_ID_mod_toggles]
  split_ifs <;> simp

/-- The shifted-key switch writes neither `mod_filter` nor `mod_toggles`. -/
theorem shiftedKey_switch_physical (s : State) (state : Nat) (args : Nat → Nat) :
    (shiftedKey_switch s state args).mod_filter = s.mod_filter
      ∧ (shiftedKey_switch s state args).mod_toggles = s.mod_toggles := by
  unfold shiftedKey_switch
  simp only []
  cases KLL_CapabilityState state <;> simp

theorem shiftedKey_switch_press (s : State) (args : Nat → Nat) :
    shiftedKey_switch s STATE_PRESS args
      = shiftedKey_Initial s (resolved_shift s args) (resolved_altgr s args) (args 4) := rfl

theorem shiftedKey_switch_hold (s : State) (args : Nat → Nat) :
    shiftedKey_switch s STATE_HOLD args
      = shiftedKey_Any s (resolved_shift s args) (resolved_altgr s args) (args 4) := rfl

theorem shiftedKey_switch_release (s : State) (args : Nat → Nat) :
    shiftedKey_switch s STATE_RELEASE args
      = shiftedKey_Last s (resolved_shift s args) (resolved_altgr s args) (args 4) := rfl

@[simp] theorem CustomAction_shiftedKey_mod_states (s : State) (state : Nat) (args : Nat → Nat) :
    (CustomAction_shiftedKey s state args).mod_states
      = (shiftedKey_switch s state args).mod_states := rfl

/-! ## Claims C11, C12 and C13: the scenarios B, C and A -/

/-- Claim C11.  In every state with `mod_states[LeftShift] != 0`, a Press of a
shifted key whose resolved shift bit is 0 emits (0xE1, Release) first, then at most
the Release of RightShift and one edge of AltGr, and last its key code with Press,
and leaves `mod_states[LeftShift] == 0`, whoever pressed the shift.  Scenario B:
from the zeroed state, Press of ID 1 with shift and then Press of ID 2 without
shift leaves `state_map[2] == current_height == 2 > state_map[1] == 1`, and the
second call emits exactly (0xE1, Release), (key 2, Press). -/
theorem press_without_shift_releases_lshift :
    (∀ (s : State) (args : Nat → Nat),
        s.mod_states LSHIFT_INDEX ≠ 0 → resolved_shift s args = 0 →
        emitted s (CustomAction_shiftedKey s STATE_PRESS args)
            = (LSHIFT_CODE, STATE_RELEASE)
              :: ((if s.mod_states RSHIFT_INDEX ≠ 0 then [(RSHIFT_CODE, STATE_RELEASE)] else [])
                ++ (if resolved_altgr s args = 0 ∧ s.mod_states ALTGR_INDEX ≠ 0 then
                      [(ALTGR_CODE, STATE_RELEASE)] else [])
                ++ (if resolved_altgr s args ≠ 0 ∧ s.mod_states ALTGR_INDEX = 0 then
                      [(ALTGR_CODE, STATE_PRESS)] else [])
                ++ [(resolved_key s args, STATE_PRESS)])
          ∧ (CustomAction_shiftedKey s STATE_PRESS args).mod_states LSHIFT_INDEX = 0)
      ∧ (run State.zeroed [keyOne 1]).mod_states LSHIFT_INDEX = 1
      ∧ emitted (run State.zeroed [keyOne 1]) (run State.zeroed [keyOne 1, keyTwo 1])
          = [(0xE1, STATE_RELEASE), (5, STATE_PRESS)]
      ∧ (run State.zeroed [keyOne 1, keyTwo 1]).state_map 2 = 2
      ∧ (run State.zeroed [keyOne 1, keyTwo 1]).current_height = 2
      ∧ (run State.zeroed [keyOne 1, keyTwo 1]).state_map 1 = 1
      ∧ (run State.zeroed [keyOne 1, keyTwo 1]).mod_states LSHIFT_INDEX = 0 := by
  refine ⟨?_, by decide, by decide, by decide, by decide, by decide, by decide⟩
  intro s args hout hshift
  constructor
  · rw [CustomAction_shiftedKey_emitted, shiftedKey_switch_press,
      emitted_of_trace s _ _ (shiftedKey_Initial_trace s _ _ _)]
    simp [hshift, hout]
  · rw [CustomAction_shiftedKey_mod_states, shiftedKey_switch_press,
      (shiftedKey_Initial_mod_states s _ _ _).1, if_pos hshift]

/-- Scenario B as an instance of claim C11: the state after the Press of key 1 has
the LeftShift flag set, and the arguments of key 2 resolve to shift bit 0. -/
theorem press_without_shift_releases_lshift_witness :
    (run State.zeroed [keyOne 1]).mod_states LSHIFT_INDEX ≠ 0
      ∧ resolved_shift (run State.zeroed [keyOne 1]) (mkArgs [0, 5, 0, 31, 2]) = 0
      ∧ (CustomAction_shiftedKey (run State.zeroed [keyOne 1]) STATE_PRESS
          (mkArgs [0, 5, 0, 31, 2])).mod_states LSHIFT_INDEX = 0 :=
  ⟨by decide, by decide,
    (press_without_shift_releases_lshift.1 (run State.zeroed [keyOne 1])
      (mkArgs [0, 5, 0, 31, 2]) (by decide) (by decide)).2⟩

/-- Claim C12.  In every state with `current_height == 0`, a Hold of a shifted key
whose ID is registered obtains authority: `register_ID` returns a value different
from 0 and `current_height` becomes `state_map[id]`; if its resolved shift bit is
set and `mod_states[LeftShift] == 0`, the call emits (0xE1, Press) first, then at
most one edge of RightShift and one of AltGr, and last its key code with Hold.
Scenario C: from the zeroed state, Press of ID 1 with shift, Press of ID 2 without
shift, Release of ID 2 and Hold of ID 1; the last call emits exactly
(0xE1, Press), (key 1, Hold). -/
theorem hold_reclaims_authority :
    (∀ (s : State) (args : Nat → Nat),
        s.current_height = 0 → s.state_map (args 4) ≠ 0 →
        (register_ID s (args 4)).1 ≠ 0
          ∧ (register_ID s (args 4)).2.current_height = s.state_map (args 4)
          ∧ (CustomAction_shiftedKey s STATE_HOLD args).current_height = s.state_map (args 4)
          ∧ (resolved_shift s args ≠ 0 → s.mod_states LSHIFT_INDEX = 0 →
              emitted s (CustomAction_shiftedKey s STATE_HOLD args)
                = (LSHIFT_CODE, STATE_PRESS)
                  :: ((if s.mod_filter RSHIFT_INDEX ≠ 0 then
                        (if s.mod_states RSHIFT_INDEX ≠ 0 then [(RSHIFT_CODE, STATE_HOLD)]
                          else [(RSHIFT_CODE, STATE_PRESS)])
                      else [])
                    ++ (if resolved_altgr s args ≠ 0 then
                          (if s.mod_states ALTGR_INDEX ≠ 0 then [(ALTGR_CODE, STATE_HOLD)]
                            else [(ALTGR_CODE, STATE_PRESS)])
                        else (if s.mod_states ALTGR_INDEX ≠ 0 then
                          [(ALTGR_CODE, STATE_RELEASE)] else []))
                    ++ [(resolved_key s args, STATE_HOLD)])))
      ∧ (run State.zeroed [keyOne 1, keyTwo 1, keyTwo 3]).current_height = 0
      ∧ (run State.zeroed [keyOne 1, keyTwo 1, keyTwo 3]).state_map 1 = 1
      ∧ (run State.zeroed [keyOne 1, keyTwo 1, keyTwo 3]).mod_states LSHIFT_INDEX = 0
      ∧ emitted (run State.zeroed [keyOne 1, keyTwo 1, keyTwo 3])
            (run State.zeroed [keyOne 1, keyTwo 1, keyTwo 3, keyOne 2])
          = [(0xE1, STATE_PRESS), (4, STATE_HOLD)]
      ∧ (run State.zeroed [keyOne 1, keyTwo 1, keyTwo 3, keyOne 2]).current_height = 1 := by
  refine ⟨?_, by decide, by decide, by decide, by decide, by decide⟩
  intro s args hzero hreg
  have hge : s.state_map (args 4) ≥ s.current_height := by omega
  have hres : (register_ID s (args 4)).1 ≠ 0 := by
    rw [register_ID_result, if_neg hreg, if_pos hge]
    exact hreg
  refine ⟨hres, ?_, ?_, ?_⟩
  · rw [register_ID_current_height, if_neg hreg, if_pos hge]
  · rw [CustomAction_shiftedKey_current_height, registryStep_hold, register_ID_current_height,
      if_neg hreg, if_pos hge]
  · intro hshift hout
    rw [CustomAction_shiftedKey_emitted, shiftedKey_switch_hold,
      emitted_of_trace s _ _ (shiftedKey_Any_trace s _ _ _), if_pos hres, if_pos hshift]
    simp [hout]

/-- Scenario C as an instance of claim C12. -/
theorem hold_reclaims_authority_witness :
    (run State.zeroed [keyOne 1, keyTwo 1, keyTwo 3]).current_height = 0
      ∧ (run State.zeroed [keyOne 1, keyTwo 1, keyTwo 3]).state_map
          (mkArgs [1, 4, 1, 30, 1] 4) ≠ 0
      ∧ (CustomAction_shiftedKey (run State.zeroed [keyOne 1, keyTwo 1, keyTwo 3]) STATE_HOLD
          (mkArgs [1, 4, 1, 30, 1])).current_height
        = (run State.zeroed [keyOne 1, keyTwo 1, keyTwo 3]).state_map
            (mkArgs [1, 4, 1, 30, 1] 4) :=
  ⟨by decide, by decide,
    (hold_reclaims_authority.1 (run State.zeroed [keyOne 1, keyTwo 1, keyTwo 3])
      (mkArgs [1, 4, 1, 30, 1]) (by decide) (by decide)).2.2.1⟩

/-- Claim C13.  Scenario A: from the zeroed state, a Press of the shifted key with
ID 1 whose unshifted modbits have the shift bit set and the altgr bit clear emits
exactly (0xE1, Press), (`args[1]`, Press) in that order, sets
`mod_states[LeftShift]` to 1, registers ID 1 with height 1, and `is_shifted` is 0
before and after the call. -/
theorem press_with_shift_from_zeroed (args : Nat → Nat)
    (hshift : args 0 &&& 0x01 = 1) (haltgr : args 0 &&& 0x02 = 0) (hid : args 4 = 1) :
    emitted State.zeroed (CustomAction_shiftedKey State.zeroed STATE_PRESS args)
        = [(0xE1, STATE_PRESS), (args 1, STATE_PRESS)]
      ∧ (CustomAction_shiftedKey State.zeroed STATE_PRESS args).mod_states LSHIFT_INDEX = 1
      ∧ (CustomAction_shiftedKey State.zeroed STATE_PRESS args).state_map 1 = 1
      ∧ (CustomAction_shiftedKey State.zeroed STATE_PRESS args).current_height = 1
      ∧ is_shifted State.zeroed = 0
      ∧ is_shifted (CustomAction_shiftedKey State.zeroed STATE_PRESS args) = 0 := by
  have hz : is_shifted State.zeroed = 0 := by decide
  have hs : resolved_shift State.zeroed args = 1 := by
    simp [resolved_shift, hz, hshift]
  have ha : resolved_altgr State.zeroed args = 0 := by
    simp [resolved_altgr, hz, haltgr]
  have hk : resolved_key State.zeroed args = args 1 := by
    simp [resolved_key, hz]
  refine ⟨?_, ?_, ?_, ?_, hz, ?_⟩
  · rw [CustomAction_shiftedKey_emitted, shiftedKey_switch_press,
      emitted_of_trace _ _ _ (shiftedKey_Initial_trace _ _ _ _), hs, ha, hk]
    simp [State.zeroed, mod_codes]
  · rw [CustomAction_shiftedKey_mod_states, shiftedKey_switch_press,
      (shiftedKey_Initial_mod_states _ _ _ _).1, hs]
    simp [State.zeroed]
  · rw [CustomAction_shiftedKey_state_map, hid, registryStep_press, register_ID_state_map]
    simp [State.zeroed]
  · rw [CustomAction_shiftedKey_current_height, hid, registryStep_press,
      register_ID_current_height]
    simp [State.zeroed]
  · have hp := shiftedKey_switch_physical State.zeroed STATE_PRESS args
    unfold is_shifted CustomAction_shiftedKey
    simp only [send_mod_filter, send_mod_toggles, hp.1, hp.2]
    decide

theorem press_with_shift_from_zeroed_witness :
    (mkArgs [1, 4, 1, 30, 1] 0 &&& 0x01 = 1) ∧ (mkArgs [1, 4, 1, 30, 1] 0 &&& 0x02 = 0)
      ∧ mkArgs [1, 4, 1, 30, 1] 4 = 1
      ∧ emitted State.zeroed
          (CustomAction_shiftedKey State.zeroed STATE_PRESS (mkArgs [1, 4, 1, 30, 1]))
        = [(0xE1, STATE_PRESS), (mkArgs [1, 4, 1, 30, 1] 1, STATE_PRESS)] :=
  ⟨by decide, by decide, by decide,
    (press_with_shift_from_zeroed (mkArgs [1, 4, 1, 30, 1]) (by decide) (by decide)
      (by decide)).1⟩

/-! ## Claims C14 and C16: the plain modifier keys -/

/-- One Press and one Release of a plain modifier key in a state without a priority
holder and with the output flag of the slot clear. -/
theorem toggleCycle_step (s : State) (slot : Nat)
    (hc : s.current_height = 0) (hm : s.mod_states slot = 0) :
    (run s (toggleCycle slot)).trace
        = s.trace ++ [(mod_codes slot, STATE_PRESS), (mod_codes slot, STATE_RELEASE)]
      ∧ (run s (toggleCycle slot)).mod_filter slot = 0
      ∧ (run s (toggleCycle slot)).mod_states slot = 0
      ∧ (run s (toggleCycle slot)).mod_toggles slot = (s.mod_toggles slot + 2) % 4
      ∧ (run s (toggleCycle slot)).current_height = 0 := by
  have hmod : ((s.mod_toggles slot + 1) % 4 + 1) % 4 = (s.mod_toggles slot + 2) % 4 := by
    omega
  simp [run, toggleCycle, step, CustomAction_filterMod, KLL_CapabilityState, mkArgs, hc, hm,
    hmod]

/-- Claim C14.  Scenario D, generalised: in every state with `current_height == 0`
and `mod_states[slot] == 0`, for a slot in 0..3 with a toggle value in 0..3, a
`CustomAction_filterMod` Press followed by a Release on that slot emits exactly
(`mod_codes[slot]`, Press), (`mod_codes[slot]`, Release), leaves `mod_filter[slot]`
and `mod_states[slot]` at 0 and advances `mod_toggles[slot]` by 2 modulo 4; four
such cycles leave `mod_toggles[slot]`, for CapsLock as for every slot, equal to its
value before the first cycle, and so of the same parity. -/
theorem toggleCycle_effect (s : State) (slot : Nat) (_hslot : slot < 4)
    (hc : s.current_height = 0) (hm : s.mod_states slot = 0) (ht : s.mod_toggles slot ≤ 3) :
    emitted s (run s (toggleCycle slot))
        = [(mod_codes slot, STATE_PRESS), (mod_codes slot, STATE_RELEASE)]
      ∧ (run s (toggleCycle slot)).mod_filter slot = 0
      ∧ (run s (toggleCycle slot)).mod_states slot = 0
      ∧ (run s (toggleCycle slot)).mod_toggles slot = (s.mod_toggles slot + 2) % 4
      ∧ (run s (List.replicate 4 (toggleCycle slot)).flatten).mod_toggles slot
          = s.mod_toggles slot
      ∧ (run s (List.replicate 4 (toggleCycle slot)).flatten).mod_toggles slot % 2
          = s.mod_toggles slot % 2 := by
  obtain ⟨t1, f1, m1, g1, c1⟩ := toggleCycle_step s slot hc hm
  have hfour : (run s (List.replicate 4 (toggleCycle slot)).flatten).mod_toggles slot
      = s.mod_toggles slot := by
    have hsplit : (List.replicate 4 (toggleCycle slot)).flatten
        = toggleCycle slot ++ (toggleCycle slot ++ (toggleCycle slot ++ toggleCycle slot)) := by
      simp [List.replicate]
    rw [hsplit, run_append, run_append, run_append]
    obtain ⟨_, _, m2, g2, c2⟩ := toggleCycle_step _ slot c1 m1
    obtain ⟨_, _, m3, g3, c3⟩ := toggleCycle_step _ slot c2 m2
    obtain ⟨_, _, _, g4, _⟩ := toggleCycle_step _ slot c3 m3
    rw [g4, g3, g2, g1]
    omega
  exact ⟨emitted_of_trace s _ _ t1, f1, m1, g1, hfour, by rw [hfour]⟩

/-- Four toggle cycles of CapsLock from the zeroed state. -/
theorem toggleCycle_effect_witness :
    CAPS_INDEX < 4 ∧ State.zeroed.current_height = 0 ∧ State.zeroed.mod_states CAPS_INDEX = 0
      ∧ State.zeroed.mod_toggles CAPS_INDEX ≤ 3
      ∧ (run State.zeroed (List.replicate 4 (toggleCycle CAPS_INDEX)).flatten).mod_toggles
          CAPS_INDEX = State.zeroed.mod_toggles CAPS_INDEX :=
  ⟨by decide, by decide, by decide, by decide,
    (toggleCycle_effect State.zeroed CAPS_INDEX (by decide) (by decide) (by decide)
      (by decide)).2.2.2.2.1⟩

/-- Claim C16.  In every state with `current_height != 0` and for every slot in
0..3, a call of `CustomAction_filterMod` emits nothing and changes nothing but
`mod_filter[slot]`: Press sets it to 1, Release sets it to 0, Hold changes nothing;
`mod_states`, `mod_toggles`, the registry and the trace are unchanged. -/
theorem filterMod_silent_under_priority (s : State) (state : Nat) (args : Nat → Nat)
    (_hslot : args 0 < 4) (hc : s.current_height ≠ 0) :
    emitted s (CustomAction_filterMod s state args) = []
      ∧ (CustomAction_filterMod s state args).mod_states = s.mod_states
      ∧ (CustomAction_filterMod s state args).mod_toggles = s.mod_toggles
      ∧ (CustomAction_filterMod s state args).state_map = s.state_map
      ∧ (CustomAction_filterMod s state args).current_height = s.current_height
      ∧ (∀ j, j ≠ args 0 → (CustomAction_filterMod s state args).mod_filter j = s.mod_filter j)
      ∧ (state = STATE_PRESS →
          CustomAction_filterMod s state args
            = { s with mod_filter := upd s.mod_filter (args 0) 1 })
      ∧ (state = STATE_HOLD → CustomAction_filterMod s state args = s)
      ∧ (state = STATE_RELEASE →
          CustomAction_filterMod s state args
            = { s with mod_filter := upd s.mod_filter (args 0) 0 }) := by
  have hp : CustomAction_filterMod s STATE_PRESS args
      = { s with mod_filter := upd s.mod_filter (args 0) 1 } := by
    simp [CustomAction_filterMod, KLL_CapabilityState, hc]
  have hh : CustomAction_filterMod s STATE_HOLD args = s := by
    simp [CustomAction_filterMod, KLL_CapabilityState, hc]
  have hr : CustomAction_filterMod s STATE_RELEASE args
      = { s with mod_filter := upd s.mod_filter (args 0) 0 } := by
    simp [CustomAction_filterMod, KLL_CapabilityState, hc]
  have hcases : CustomAction_filterMod s state args = s
      ∨ CustomAction_filterMod s state args = { s with mod_filter := upd s.mod_filter (args 0) 1 }
      ∨ CustomAction_filterMod s state args
          = { s with mod_filter := upd s.mod_filter (args 0) 0 } := by
    unfold CustomAction_filterMod
    cases KLL_CapabilityState state <;> simp [hc]
  refine ⟨?_, ?_, ?_, ?_, ?_, ?_, fun h => h ▸ hp, fun h => h ▸ hh, fun h => h ▸ hr⟩
  · rcases hcases with h | h | h <;> rw [h] <;> simp [emitted]
  · rcases hcases with h | h | h <;> rw [h]
  · rcases hcases with h | h | h <;> rw [h]
  · rcases hcases with h | h | h <;> rw [h]
  · rcases hcases with h | h | h <;> rw [h]
  · intro j hj
    rcases hcases with h | h | h <;> rw [h] <;> simp [hj]

/-- While key 1 holds priority, the Press of the plain LeftShift key only sets its
filter. -/
theorem filterMod_silent_under_priority_witness :
    mkArgs [0] 0 < 4 ∧ (run State.zeroed [keyOne 1]).current_height ≠ 0
      ∧ emitted (run State.zeroed [keyOne 1])
          (CustomAction_filterMod (run State.zeroed [keyOne 1]) STATE_PRESS (mkArgs [0])) = []
      ∧ (CustomAction_filterMod (run State.zeroed [keyOne 1]) STATE_PRESS (mkArgs [0])).mod_filter
          0 = 1 :=
  ⟨by decide, by decide,
    (filterMod_silent_under_priority (run State.zeroed [keyOne 1]) STATE_PRESS (mkArgs [0])
      (by decide) (by decide)).1,
    by decide⟩

/-! ## Claims C15, C17 and C18: the cases of the shifted-key switch -/

/-- Claim C15.  A Hold of a shifted key whose ID is registered below
`current_height`, so that `register_ID` returns 0, emits exactly one emission, its
resolved key code with Hold, and leaves the registry and the whole modifier slot
bank unchanged: the state after the call is the state before with that one emission
added to the trace. -/
theorem hold_without_authority_is_silent (s : State) (args : Nat → Nat)
    (hreg : s.state_map (args 4) ≠ 0) (hlow : s.state_map (args 4) < s.current_height) :
    (register_ID s (args 4)).1 = 0
      ∧ CustomAction_shiftedKey s STATE_HOLD args
          = { s with trace := s.trace ++ [(resolved_key s args, STATE_HOLD)] }
      ∧ emitted s (CustomAction_shiftedKey s STATE_HOLD args)
          = [(resolved_key s args, STATE_HOLD)]
      ∧ (CustomAction_shiftedKey s STATE_HOLD args).state_map = s.state_map
      ∧ (CustomAction_shiftedKey s STATE_HOLD args).current_height = s.current_height
      ∧ (CustomAction_shiftedKey s STATE_HOLD args).mod_filter = s.mod_filter
      ∧ (CustomAction_shiftedKey s STATE_HOLD args).mod_toggles = s.mod_toggles
      ∧ (CustomAction_shiftedKey s STATE_HOLD args).mod_states = s.mod_states := by
  have hnot : ¬ s.state_map (args 4) ≥ s.current_height := by omega
  have hr : register_ID s (args 4) = (0, s) := by
    unfold register_ID
    rw [if_neg hreg, if_neg hnot]
  have hcall : CustomAction_shiftedKey s STATE_HOLD args
      = { s with trace := s.trace ++ [(resolved_key s args, STATE_HOLD)] } := by
    unfold CustomAction_shiftedKey
    rw [shiftedKey_switch_hold]
    unfold shiftedKey_Any
    simp only [hr]
    rfl
  refine ⟨by rw [hr], hcall, ?_, ?_, ?_, ?_, ?_, ?_⟩
  · exact emitted_of_trace s _ _ (by rw [hcall])
  all_goals rw [hcall]

/-- In `rolloverCalls`, the Hold of key 1 in the third tick finds key 2 on top. -/
theorem hold_without_authority_is_silent_witness :
    (run State.zeroed [keyOne 1, keyOne 2, keyTwo 1]).state_map (mkArgs [1, 4, 1, 30, 1] 4) ≠ 0
      ∧ (run State.zeroed [keyOne 1, keyOne 2, keyTwo 1]).state_map (mkArgs [1, 4, 1, 30, 1] 4)
          < (run State.zeroed [keyOne 1, keyOne 2, keyTwo 1]).current_height
      ∧ emitted (run State.zeroed [keyOne 1, keyOne 2, keyTwo 1])
          (CustomAction_shiftedKey (run State.zeroed [keyOne 1, keyOne 2, keyTwo 1]) STATE_HOLD
            (mkArgs [1, 4, 1, 30, 1]))
        = [(resolved_key (run State.zeroed [keyOne 1, keyOne 2, keyTwo 1])
            (mkArgs [1, 4, 1, 30, 1]), STATE_HOLD)] :=
  ⟨by decide, by decide,
    (hold_without_authority_is_silent (run State.zeroed [keyOne 1, keyOne 2, keyTwo 1])
      (mkArgs [1, 4, 1, 30, 1]) (by decide) (by decide)).2.2.1⟩

/-- Whenever `register_ID` returns 0 in the Hold case, also at the 8-bit wrap of a
fresh registration, the call emits its key code only and leaves the modifier slot
bank unchanged. -/
theorem hold_silent_of_result_zero (s : State) (args : Nat → Nat)
    (h0 : (register_ID s (args 4)).1 = 0) :
    emitted s (CustomAction_shiftedKey s STATE_HOLD args) = [(resolved_key s args, STATE_HOLD)]
      ∧ (CustomAction_shiftedKey s STATE_HOLD args).mod_filter = s.mod_filter
      ∧ (CustomAction_shiftedKey s STATE_HOLD args).mod_toggles = s.mod_toggles
      ∧ (CustomAction_shiftedKey s STATE_HOLD args).mod_states = s.mod_states := by
  obtain ⟨hf, ht⟩ := shiftedKey_switch_physical s STATE_HOLD args
  refine ⟨?_, ?_, ?_, ?_⟩
  · rw [CustomAction_shiftedKey_emitted, shiftedKey_switch_hold,
      emitted_of_trace s _ _ (shiftedKey_Any_trace s _ _ _)]
    simp [h0]
  · unfold CustomAction_shiftedKey
    simp [hf]
  · unfold CustomAction_shiftedKey
    simp [ht]
  · rw [CustomAction_shiftedKey_mod_states, shiftedKey_switch_hold, shiftedKey_Any_mod_states]

/-- Claim C17.  After a Release call of `CustomAction_shiftedKey`, in every state
and for every ID, `state_map[id] == 0`, whether or not the ID was authoritative, and
no other entry of `state_map` is changed.  The switch of the call emits nothing at
all if `register_ID` returned 0, so a modifier Release edge is emitted only if
`register_ID` returned a value different from 0; the only other emission of the call
is its key code. -/
theorem release_frees_registry_entry (s : State) (args : Nat → Nat) :
    (CustomAction_shiftedKey s STATE_RELEASE args).state_map (args 4) = 0
      ∧ (∀ j, j ≠ args 4 →
          (CustomAction_shiftedKey s STATE_RELEASE args).state_map j = s.state_map j)
      ∧ ((register_ID s (args 4)).1 = 0 →
          emitted s (shiftedKey_switch s STATE_RELEASE args) = [])
      ∧ (∀ slot, slot < 4 →
          (mod_codes slot, STATE_RELEASE) ∈ emitted s (shiftedKey_switch s STATE_RELEASE args) →
          (register_ID s (args 4)).1 ≠ 0)
      ∧ emitted s (CustomAction_shiftedKey s STATE_RELEASE args)
          = emitted s (shiftedKey_switch s STATE_RELEASE args)
            ++ [(resolved_key s args, STATE_RELEASE)]
      ∧ (isModCode (resolved_key s args) = false → ∀ slot, slot < 4 →
          (mod_codes slot, STATE_RELEASE) ∈ emitted s (CustomAction_shiftedKey s STATE_RELEASE args) →
          (register_ID s (args 4)).1 ≠ 0) := by
  have hsilent : (register_ID s (args 4)).1 = 0 →
      emitted s (shiftedKey_switch s STATE_RELEASE args) = [] := by
    intro h0
    rw [shiftedKey_switch_release, emitted_of_trace s _ _ (shiftedKey_Last_trace s _ _ _)]
    simp [h0]
  have hguard : ∀ slot, slot < 4 →
      (mod_codes slot, STATE_RELEASE) ∈ emitted s (shiftedKey_switch s STATE_RELEASE args) →
      (register_ID s (args 4)).1 ≠ 0 := by
    intro slot _ hmem h0
    rw [hsilent h0] at hmem
    simp at hmem
  refine ⟨?_, ?_, hsilent, hguard, CustomAction_shiftedKey_emitted s _ args, ?_⟩
  · rw [CustomAction_shiftedKey_state_map, registryStep_release, unregister_ID_state_map]
    simp
  · intro j hj
    rw [CustomAction_shiftedKey_state_map, registryStep_release, unregister_ID_state_map,
      register_ID_state_map]
    split_ifs <;> simp [hj]
  · intro hkey slot hslot hmem
    rw [CustomAction_shiftedKey_emitted] at hmem
    rcases List.mem_append.1 hmem with h | h
    · exact hguard slot hslot h
    · exfalso
      simp only [List.mem_singleton, Prod.mk.injEq] at h
      have hcode : isModCode (mod_codes slot) = true := by
        interval_cases slot <;> decide
      rw [h.1, hkey] at hcode
      exact absurd hcode (by simp)

/-- Claim C18.  After the Press case of `CustomAction_shiftedKey`, in every state,
`mod_states[LeftShift] != 0` exactly when the resolved shift bit is set,
`mod_states[AltGr] != 0` exactly when the resolved altgr bit is set, and
`mod_states[RightShift] == 0` when the shift bit is clear; the switch emits a
RightShift Press edge only if it also emits a LeftShift Press edge and
`mod_filter[RightShift] != 0`; the only other emission of the call is its key
code. -/
theorem press_reconciles_output_flags (s : State) (args : Nat → Nat) :
    ((CustomAction_shiftedKey s STATE_PRESS args).mod_states LSHIFT_INDEX ≠ 0
        ↔ resolved_shift s args ≠ 0)
      ∧ ((CustomAction_shiftedKey s STATE_PRESS args).mod_states ALTGR_INDEX ≠ 0
          ↔ resolved_altgr s args ≠ 0)
      ∧ (resolved_shift s args = 0 →
          (CustomAction_shiftedKey s STATE_PRESS args).mod_states RSHIFT_INDEX = 0)
      ∧ ((RSHIFT_CODE, STATE_PRESS) ∈ emitted s (shiftedKey_switch s STATE_PRESS args) →
          (LSHIFT_CODE, STATE_PRESS) ∈ emitted s (shiftedKey_switch s STATE_PRESS args)
            ∧ s.mod_filter RSHIFT_INDEX ≠ 0)
      ∧ emitted s (CustomAction_shiftedKey s STATE_PRESS args)
          = emitted s (shiftedKey_switch s STATE_PRESS args)
            ++ [(resolved_key s args, STATE_PRESS)]
      ∧ (isModCode (resolved_key s args) = false →
          (RSHIFT_CODE, STATE_PRESS) ∈ emitted s (CustomAction_shiftedKey s STATE_PRESS args) →
          (LSHIFT_CODE, STATE_PRESS) ∈ emitted s (CustomAction_shiftedKey s STATE_PRESS args)
            ∧ s.mod_filter RSHIFT_INDEX ≠ 0) := by
  obtain ⟨hL, hR, hA, _⟩ :=
    shiftedKey_Initial_mod_states s (resolved_shift s args) (resolved_altgr s args) (args 4)
  have hswitch : (RSHIFT_CODE, STATE_PRESS) ∈ emitted s (shiftedKey_switch s STATE_PRESS args) →
      (LSHIFT_CODE, STATE_PRESS) ∈ emitted s (shiftedKey_switch s STATE_PRESS args)
        ∧ s.mod_filter RSHIFT_INDEX ≠ 0 := by
    rw [shiftedKey_switch_press, emitted_of_trace s _ _ (shiftedKey_Initial_trace s _ _ _)]
    intro hmem
    by_cases hs : resolved_shift s args = 0 <;> by_cases ha : resolved_altgr s args = 0 <;>
      by_cases h0 : s.mod_states LSHIFT_INDEX = 0 <;>
      by_cases h1 : s.mod_states RSHIFT_INDEX = 0 <;>
      by_cases h3 : s.mod_states ALTGR_INDEX = 0 <;>
      by_cases hf : s.mod_filter RSHIFT_INDEX = 0 <;>
      simp [hs, ha, h0, h1, h3, hf, mod_codes] at hmem ⊢
  refine ⟨?_, ?_, ?_, hswitch, CustomAction_shiftedKey_emitted s _ args, ?_⟩
  · rw [CustomAction_shiftedKey_mod_states, shiftedKey_switch_press, hL]
    by_cases hs : resolved_shift s args = 0
    · simp [hs]
    · by_cases h0 : s.mod_states LSHIFT_INDEX = 0 <;> simp [hs, h0]
  · rw [CustomAction_shiftedKey_mod_states, shiftedKey_switch_press, hA]
    by_cases ha : resolved_altgr s args = 0
    · simp [ha]
    · by_cases h3 : s.mod_states ALTGR_INDEX = 0 <;> simp [ha, h3]
  · intro hs
    rw [CustomAction_shiftedKey_mod_states, shiftedKey_switch_press, hR, if_pos hs]
  · intro hkey hmem
    rw [CustomAction_shiftedKey_emitted] at hmem ⊢
    rcases List.mem_append.1 hmem with h | h
    · exact ⟨List.mem_append_left _ (hswitch h).1, (hswitch h).2⟩
    · exfalso
      simp only [List.mem_singleton, Prod.mk.injEq] at h
      have hcode : isModCode RSHIFT_CODE = true := by decide
      rw [h.1, hkey] at hcode
      exact absurd hcode (by simp)

/-- After the Press of key 1, which set the LeftShift flag with authority, its
Release emits the Release edge of LeftShift. -/
theorem release_frees_registry_entry_witness :
    (mod_codes 0, STATE_RELEASE)
        ∈ emitted (run State.zeroed [keyOne 1])
            (shiftedKey_switch (run State.zeroed [keyOne 1]) STATE_RELEASE
              (mkArgs [1, 4, 1, 30, 1]))
      ∧ (register_ID (run State.zeroed [keyOne 1]) (mkArgs [1, 4, 1, 30, 1] 4)).1 ≠ 0
      ∧ (CustomAction_shiftedKey (run State.zeroed [keyOne 1]) STATE_RELEASE
          (mkArgs [1, 4, 1, 30, 1])).state_map (mkArgs [1, 4, 1, 30, 1] 4) = 0 :=
  ⟨by decide,
    (release_frees_registry_entry (run State.zeroed [keyOne 1])
      (mkArgs [1, 4, 1, 30, 1])).2.2.2.1 0 (by decide) (by decide),
    (release_frees_registry_entry (run State.zeroed [keyOne 1]) (mkArgs [1, 4, 1, 30, 1])).1⟩

/-- With the plain RightShift key down, the Press of a key whose shifted
interpretation wants shift emits the Press edges of both shifts. -/
theorem press_reconciles_output_flags_witness :
    (RSHIFT_CODE, STATE_PRESS)
        ∈ emitted (run State.zeroed [Call.filterMod 1 [1]])
            (shiftedKey_switch (run State.zeroed [Call.filterMod 1 [1]]) STATE_PRESS
              (mkArgs [0, 4, 1, 30, 1]))
      ∧ (LSHIFT_CODE, STATE_PRESS)
          ∈ emitted (run State.zeroed [Call.filterMod 1 [1]])
              (shiftedKey_switch (run State.zeroed [Call.filterMod 1 [1]]) STATE_PRESS
                (mkArgs [0, 4, 1, 30, 1]))
      ∧ (run State.zeroed [Call.filterMod 1 [1]]).mod_filter RSHIFT_INDEX ≠ 0 :=
  ⟨by decide,
    ((press_reconciles_output_flags (run State.zeroed [Call.filterMod 1 [1]])
      (mkArgs [0, 4, 1, 30, 1])).2.2.2.1 (by decide)).1,
    ((press_reconciles_output_flags (run State.zeroed [Call.filterMod 1 [1]])
      (mkArgs [0, 4, 1, 30, 1])).2.2.2.1 (by decide)).2⟩

/-! ## Claim C19: authority always has a holder -/

/-- One registry call keeps: `current_height` is 0 or the height of some ID below
100. -/
theorem registryCall_keeps_holder (s : State) (op : RegistryCall) (hid : op.id < 100)
    (h : s.current_height = 0 ∨ ∃ id, id < 100 ∧ s.state_map id = s.current_height) :
    (registryCall s op).current_height = 0
      ∨ ∃ id, id < 100
          ∧ (registryCall s op).state_map id = (registryCall s op).current_height := by
  cases op with
  | register i =>
    simp only [RegistryCall.id] at hid
    simp only [registryCall, register_ID_state_map, register_ID_current_height]
    by_cases hz : s.state_map i = 0
    · right
      exact ⟨i, hid, by simp [hz]⟩
    · by_cases hge : s.state_map i ≥ s.current_height
      · right
        exact ⟨i, hid, by simp [hz, hge]⟩
      · simp only [if_neg hz, if_neg hge]
        exact h
  | unregister i =>
    simp only [registryCall, unregister_ID_state_map, unregister_ID_current_height]
    by_cases hge : s.state_map i ≥ s.current_height
    · left
      simp [hge]
    · simp only [if_neg hge]
      rcases h with h0 | ⟨j, hj, hjc⟩
      · exact Or.inl h0
      · right
        refine ⟨j, hj, ?_⟩
        have hji : j ≠ i := by
          intro hEq
          subst hEq
          omega
        simp [hji, hjc]

theorem runRegistry_keeps_holder (ops : List RegistryCall) :
    ∀ s : State, (∀ op, op ∈ ops → op.id < 100) →
      (s.current_height = 0 ∨ ∃ id, id < 100 ∧ s.state_map id = s.current_height) →
      (runRegistry s ops).current_height = 0
        ∨ ∃ id, id < 100
            ∧ (runRegistry s ops).state_map id = (runRegistry s ops).current_height := by
  induction ops with
  | nil => intro s _ h; exact h
  | cons op ops ih =>
    intro s hids h
    exact ih (registryCall s op) (fun o ho => hids o (List.mem_cons_of_mem op ho))
      (registryCall_keeps_holder s op (hids op (List.mem_cons_self op ops)) h)

/-- Claim C19.  In every registry state reached from the zeroed registry by any
sequence of `register_ID` and `unregister_ID` calls on IDs 0..99, with the 8-bit
wrap of the height included, `current_height` is 0 or some ID has
`state_map[id] == current_height`. -/
theorem authority_never_dangling (ops : List RegistryCall)
    (hids : ∀ op, op ∈ ops → op.id < 100) :
    (runRegistry State.zeroed ops).current_height = 0
      ∨ ∃ id, id < 100
          ∧ (runRegistry State.zeroed ops).state_map id
              = (runRegistry State.zeroed ops).current_height :=
  runRegistry_keeps_holder ops State.zeroed hids (Or.inl rfl)

/-- Three registry calls that leave ID 2 on top. -/
theorem authority_never_dangling_witness :
    (∀ op, op ∈ [RegistryCall.register 1, RegistryCall.register 2, RegistryCall.unregister 1] →
        op.id < 100)
      ∧ ((runRegistry State.zeroed
            [RegistryCall.register 1, RegistryCall.register 2,
              RegistryCall.unregister 1]).current_height = 0
          ∨ ∃ id, id < 100
              ∧ (runRegistry State.zeroed
                  [RegistryCall.register 1, RegistryCall.register 2,
                    RegistryCall.unregister 1]).state_map id
                = (runRegistry State.zeroed
                    [RegistryCall.register 1, RegistryCall.register 2,
                      RegistryCall.unregister 1]).current_height) :=
  ⟨by decide,
    authority_never_dangling
      [RegistryCall.register 1, RegistryCall.register 2, RegistryCall.unregister 1]
      (by decide)⟩

/-! ## Claim C20: the shifted key and the physical view -/

theorem is_shifted_congr (s t : State) (hf : t.mod_filter = s.mod_filter)
    (ht : t.mod_toggles = s.mod_toggles) : is_shifted t = is_shifted s := by
  unfold is_shifted
  rw [hf, ht]

/-- Claim C20.  Every call of `CustomAction_shiftedKey`, in every state, for every
trigger state and all arguments, leaves `mod_filter` and `mod_toggles` unchanged, so
`is_shifted` returns the same value after the call as at its entry; `register_ID`
and `unregister_ID` leave it unchanged as well, while `CustomAction_filterMod` does
change it: from the zeroed state the Press of the plain LeftShift key takes it from
0 to 1. -/
theorem shiftedKey_keeps_physical_view (s : State) (state : Nat) (args : Nat → Nat) :
    (CustomAction_shiftedKey s state args).mod_filter = s.mod_filter
      ∧ (CustomAction_shiftedKey s state args).mod_toggles = s.mod_toggles
      ∧ is_shifted (CustomAction_shiftedKey s state args) = is_shifted s
      ∧ (∀ id, is_shifted (register_ID s id).2 = is_shifted s)
      ∧ (∀ id, is_shifted (unregister_ID s id) = is_shifted s)
      ∧ is_shifted State.zeroed = 0
      ∧ is_shifted (CustomAction_filterMod State.zeroed STATE_PRESS (mkArgs [LSHIFT_INDEX]))
          = 1 := by
  obtain ⟨hf, ht⟩ := shiftedKey_switch_physical s state args
  have hf2 : (CustomAction_shiftedKey s state args).mod_filter = s.mod_filter := by
    unfold CustomAction_shiftedKey
    simp [hf]
  have ht2 : (CustomAction_shiftedKey s state args).mod_toggles = s.mod_toggles := by
    unfold CustomAction_shiftedKey
    simp [ht]
  refine ⟨hf2, ht2, is_shifted_congr s _ hf2 ht2, ?_, ?_, by decide, by decide⟩
  · intro id
    exact is_shifted_congr s _ (register_ID_mod_filter s id) (register_ID_mod_toggles s id)
  · intro id
    exact is_shifted_congr s _ (unregister_ID_mod_filter s id) (unregister_ID_mod_toggles s id)

end Controller
